import Mathlib

/-!
Shallow embedding of the grav1synth AV1 film-grain parser/rewriter, and
verification of the specification's claims against it.

The embedding follows the Rust sources:
  src/parser/util.rs   (leb128 reader and writer, bit primitives, ns, su)
  src/parser/grain.rs  (film-grain sub-bitstream reader)
  src/parser/frame.rs  (uncompressed frame header, reference-state updates)
  src/main.rs          (timeline aggregator)
Machine integers are modelled as Nat (with explicit truncation where the
source can overflow), bit streams as List Bool (MSB-first, exactly the
order in which nom's bit-level `take` consumes bits), byte streams as
List Nat (each element < 256).
-/

namespace Grav

/-! ## Parse outcomes

The Rust parser returns IResult (Ok or Err); `unwrap`/`assert!`/ArrayVec
overflow additionally panic.  A parse outcome is therefore three-valued. -/

inductive POut (α : Type) where
  /-- Successful parse: value plus remaining input bits. -/
  | ok (val : α) (rest : List Bool)
  /-- nom parse error (bit underflow etc.). -/
  | err
  /-- Rust panic (unwrap on None, assert failure, ArrayVec overflow). -/
  | crash
  deriving DecidableEq, Repr

/-- Bit-level parsers: a function from the remaining bits to an outcome. -/
def PM (α : Type) : Type := List Bool → POut α

instance : Monad PM where
  pure a := fun input => .ok a input
  bind m f := fun input =>
    match m input with
    | .ok a rest => f a rest
    | .err => .err
    | .crash => .crash

/-- Parse failure (nom Err). -/
def perr {α : Type} : PM α := fun _ => .err

/-- Rust panic inside a parser. -/
def pcrash {α : Type} : PM α := fun _ => .crash

theorem PM.bind_def {α β : Type} (m : PM α) (f : α → PM β) (input : List Bool) :
    (m >>= f) input =
      match m input with
      | .ok a rest => f a rest
      | .err => .err
      | .crash => .crash := rfl

theorem PM.pure_def {α : Type} (a : α) (input : List Bool) :
    (pure a : PM α) input = .ok a input := rfl

/-! ## Bit primitives (src/parser/util.rs)

nom's `bit_parsers::take(n)` consumes `n` bits MSB-first and fails if
fewer than `n` bits remain. -/

/-- Value of a bit list read MSB-first. -/
def bitsToNat (l : List Bool) : Nat :=
  l.foldl (fun acc b => 2 * acc + (if b then 1 else 0)) 0

/-- MSB-first encoding of the low `n` bits of `v`. -/
def natToBits : Nat → Nat → List Bool
  | 0, _ => []
  | n + 1, v => Nat.testBit v n :: natToBits n v

/-- nom `bit_parsers::take(n)`: consume `n` bits MSB-first. -/
def takeB (n : Nat) : PM Nat := fun input =>
  if n ≤ input.length then .ok (bitsToNat (input.take n)) (input.drop n) else .err

/-- `take_bool_bit`: one bit, mapped to `output > 0`. -/
def take_bool_bit : PM Bool := do
  let v ← takeB 1
  pure (v > 0)

/-- `take_zero_bits`: `bit_parsers::tag(0, bits)` succeeds iff the next
`bits` bits are all zero. -/
def take_zero_bits (bits : Nat) : PM Unit := fun input =>
  match takeB bits input with
  | .ok v rest => if v = 0 then .ok () rest else .err
  | .err => .err
  | .crash => .crash

/-- `take_zero_bit`. -/
def take_zero_bit : PM Unit := take_zero_bits 1

/-- `su(n)`: `n`-bit two's-complement signed value. -/
def su (n : Nat) : PM Int := do
  let value ← takeB n
  -- sign_mask = 1 << (n - 1); if (value & sign_mask) > 0 { value -= 2 * sign_mask }
  let signMask := 1 <<< (n - 1)
  if value &&& signMask > 0 then
    pure ((value : Int) - 2 * (signMask : Int))
  else
    pure (value : Int)

/-- `floor_log2` from util.rs: shift right until zero, counting; the final
`s - 1` is Nat (truncated) subtraction — the Rust usize underflow at
`x = 0` is unreachable at every call site (`ns` is only invoked with a
positive bound). -/
def floor_log2_go : Nat → Nat → Nat
  | 0, s => s
  | x + 1, s => floor_log2_go ((x + 1) >>> 1) (s + 1)
  termination_by x _ => x
  decreasing_by
    simp only [Nat.shiftRight_eq_div_pow, pow_one]
    omega

/-- `floor_log2(x)` = (number of binary digits of x) - 1. -/
def floor_log2 (x : Nat) : Nat := floor_log2_go x 0 - 1

/-- `ns(n)`: the AV1 non-symmetric code. -/
def ns (n : Nat) : PM Nat := do
  let w := floor_log2 n + 1
  let m := (1 <<< w) - n
  let v ← takeB (w - 1)
  if v < m then
    pure v
  else do
    let extraBit ← takeB 1
    pure ((v <<< 1) - m + extraBit)

/-! ## LEB128 (src/parser/util.rs, byte level)

`leb128` walks at most 8 bytes of the byte-level input; each iteration
takes one byte (failing if the input is exhausted), ors its low 7 bits
into the accumulator, and stops when the continuation bit is clear.
After 8 bytes the loop simply ends — there is no terminator check. -/

/-- One `ReadResult`: value, number of bytes consumed, remaining bytes. -/
structure LebResult where
  value : Nat
  bytes_read : Nat
  rest : List Nat
  deriving DecidableEq, Repr

/-- The reader loop; `fuel` counts the remaining iterations (8 at entry),
`shift` is `7 * i` for the current iteration `i`. -/
def leb128_go : Nat → Nat → Nat → Nat → List Nat → Option LebResult
  | 0, value, cnt, _, input => some ⟨value, cnt, input⟩
  | fuel + 1, value, cnt, shift, input =>
    match input with
    | [] => none
    | b :: rest =>
      let value' := value ||| ((b &&& 0x7f) <<< shift)
      if b &&& 0x80 = 0 then some ⟨value', cnt + 1, rest⟩
      else leb128_go fuel value' (cnt + 1) (shift + 7) rest

/-- `leb128`: unsigned integer from up to 8 little-endian base-128 bytes. -/
def leb128 (input : List Nat) : Option LebResult :=
  leb128_go 8 0 0 0 input

/-- `leb128_write`: minimal little-endian base-128 encoding (u32 input in
the source; we keep Nat and state theorems for values below 2^32). -/
def leb128_write (value : Nat) : List Nat :=
  if h : value >>> 7 = 0 then [value &&& 0x7f]
  else ((value &&& 0x7f) ||| 0x80) :: leb128_write (value >>> 7)
  termination_by value
  decreasing_by
    have hv : value ≠ 0 := by
      intro h0
      apply h
      rw [h0]
      rfl
    calc value >>> 7 = value / 2 ^ 7 := Nat.shiftRight_eq_div_pow value 7
    _ < value := Nat.div_lt_self (Nat.pos_of_ne_zero hv) (by norm_num)

/-- Little-endian concatenation of the low 7 bits of a byte list (the
specification's description of the value a LEB128 reader returns). -/
def low7_concat : List Nat → Nat
  | [] => 0
  | b :: rest => (b &&& 0x7f) ||| (low7_concat rest <<< 7)

/-! ## Film grain data model (src/parser/grain.rs)

ArrayVec fields become lists (their capacity bound is enforced by the
reader, which panics on overflow — modelled as crash); u8/u16 fields
become Nat; i8 AR coefficients become Int. -/

/-- `FilmGrainParams` from grain.rs. -/
structure FilmGrainParams where
  grain_seed : Nat
  scaling_points_y : List (Nat × Nat)
  scaling_points_cb : List (Nat × Nat)
  scaling_points_cr : List (Nat × Nat)
  scaling_shift : Nat
  ar_coeff_lag : Nat
  ar_coeffs_y : List Int
  ar_coeffs_cb : List Int
  ar_coeffs_cr : List Int
  ar_coeff_shift : Nat
  cb_mult : Nat
  cb_luma_mult : Nat
  cb_offset : Nat
  cr_mult : Nat
  cr_luma_mult : Nat
  cr_offset : Nat
  chroma_scaling_from_luma : Bool
  grain_scale_shift : Nat
  overlap_flag : Bool
  clip_to_restricted_range : Bool
  deriving DecidableEq, Repr

/-- The `PartialEq` impl for `FilmGrainParams`: equality of every field
EXCEPT `grain_seed` (used by the timeline aggregator for coalescing). -/
def FilmGrainParams.grain_eq (a b : FilmGrainParams) : Bool :=
  a.scaling_points_y == b.scaling_points_y
    && a.scaling_points_cb == b.scaling_points_cb
    && a.scaling_points_cr == b.scaling_points_cr
    && a.scaling_shift == b.scaling_shift
    && a.ar_coeff_lag == b.ar_coeff_lag
    && a.ar_coeffs_y == b.ar_coeffs_y
    && a.ar_coeffs_cb == b.ar_coeffs_cb
    && a.ar_coeffs_cr == b.ar_coeffs_cr
    && a.ar_coeff_shift == b.ar_coeff_shift
    && a.cb_mult == b.cb_mult
    && a.cb_luma_mult == b.cb_luma_mult
    && a.cb_offset == b.cb_offset
    && a.cr_mult == b.cr_mult
    && a.cr_luma_mult == b.cr_luma_mult
    && a.cr_offset == b.cr_offset
    && a.chroma_scaling_from_luma == b.chroma_scaling_from_luma
    && a.grain_scale_shift == b.grain_scale_shift
    && a.overlap_flag == b.overlap_flag
    && a.clip_to_restricted_range == b.clip_to_restricted_range

/-- `FilmGrainHeader` from grain.rs. -/
inductive FilmGrainHeader where
  | Disable
  | CopyRefFrame
  | UpdateGrain (params : FilmGrainParams)
  deriving DecidableEq, Repr

/-- A concrete all-zero `FilmGrainParams`, used in counterexamples. -/
def zero_params : FilmGrainParams where
  grain_seed := 0
  scaling_points_y := []
  scaling_points_cb := []
  scaling_points_cr := []
  scaling_shift := 8
  ar_coeff_lag := 0
  ar_coeffs_y := []
  ar_coeffs_cb := [0]
  ar_coeffs_cr := [0]
  ar_coeff_shift := 6
  cb_mult := 0
  cb_luma_mult := 0
  cb_offset := 0
  cr_mult := 0
  cr_luma_mult := 0
  cr_offset := 0
  chroma_scaling_from_luma := false
  grain_scale_shift := 0
  overlap_flag := false
  clip_to_restricted_range := false

/-! ## Timeline aggregator (src/main.rs, aggregate_grain_headers)

The source takes `frame_rate: Rational` (numerator/denominator), computes
`time_per_packet = 1 / frame_rate` as f64, accumulates
`cur_packet_end_f: f64` by repeated addition, and derives each interval
end as `cur_packet_end_f.ceil() as u64 * 10_000_000`.  The embedding does
the accumulation in exact rational arithmetic with the fixed denominator
`fr_num`: after k packets the accumulator is `k * fr_den / fr_num`
seconds, carried as the numerator `k * fr_den`, and the ceiling of
`end_num / fr_num` is the Nat expression `(end_num + fr_num - 1) / fr_num`.
At every concrete input used in a theorem below the double-precision
accumulation provably rounds to the same ceilings, so the model agrees
with the code there.  The `Vec` of segments is kept in reverse (most
recent first) and reversed at the end, which models
push-to-back/last_mut access structurally. -/

/-- `GrainTableSegment` from main.rs. -/
structure GrainTableSegment where
  start_time : Nat
  end_time : Nat
  grain_params : FilmGrainParams
  deriving DecidableEq, Repr

/-- 1/10,000,000 of a second, the grain-table timestamp unit. -/
def TIMESTAMP_BASE_UNIT : Nat := 10000000

/-- `cur_packet_end = cur_packet_end_f.ceil() as u64 * TIMESTAMP_BASE_UNIT`:
the ceiling of the exact accumulator value `end_num / fr_num` seconds,
in grain-table units. -/
def packet_end (end_num fr_num : Nat) : Nat :=
  ((end_num + fr_num - 1) / fr_num) * TIMESTAMP_BASE_UNIT

/-- The body of the fold in `aggregate_grain_headers` for one header. -/
def agg_step (elem : FilmGrainHeader) (acc : List GrainTableSegment)
    (cur_packet_start cur_packet_end : Nat) : List GrainTableSegment :=
  match acc with
  | [] =>
    -- prev_packet_has_grain is false on an empty accumulator
    match elem with
    | .UpdateGrain p => [⟨cur_packet_start, cur_packet_end, p⟩]
    | _ => []
  | last :: tl =>
    if last.end_time = cur_packet_start then
      -- prev_packet_has_grain
      match elem with
      | .Disable => last :: tl
      | .CopyRefFrame => { last with end_time := cur_packet_end } :: tl
      | .UpdateGrain p =>
        if p.grain_eq last.grain_params then
          { last with end_time := cur_packet_end } :: tl
        else
          ⟨cur_packet_start, cur_packet_end, p⟩ :: last :: tl
    else
      match elem with
      | .UpdateGrain p => ⟨cur_packet_start, cur_packet_end, p⟩ :: last :: tl
      | _ => last :: tl

/-- The fold of `aggregate_grain_headers`: after each packet, start moves
to the current end, the accumulator numerator advances by
`fr_den` (one `time_per_packet = fr_den / fr_num` seconds), and the end
is recomputed. -/
def agg_go (fr_num fr_den : Nat) : List FilmGrainHeader →
    List GrainTableSegment → Nat → Nat → List GrainTableSegment
  | [], acc, _, _ => acc
  | h :: rest, acc, cur_packet_start, end_num =>
    let cur_packet_end := packet_end end_num fr_num
    agg_go fr_num fr_den rest (agg_step h acc cur_packet_start cur_packet_end)
      cur_packet_end (end_num + fr_den)

/-- `aggregate_grain_headers` from main.rs, with the frame rate given as
the exact fraction `fr_num / fr_den`; the accumulator starts at one
packet duration (`cur_packet_end_f = time_per_packet`). -/
def aggregate_grain_headers (grain_headers : List FilmGrainHeader)
    (fr_num fr_den : Nat) : List GrainTableSegment :=
  (agg_go fr_num fr_den grain_headers [] 0 fr_den).reverse

/-! ## Film grain sub-bitstream reader (src/parser/grain.rs)

Capacities from the av1_grain crate: NUM_Y_POINTS = 14, NUM_UV_POINTS =
10, NUM_Y_COEFFS = 24, NUM_UV_COEFFS = 25.  `ArrayVec::push` beyond the
capacity panics, which the model reports as crash. -/

/-- `FrameType` from frame.rs; the 2-bit code 0..3 maps to
Key, Inter, IntraOnly, Switch in order. -/
inductive FrameType where
  | Key
  | Inter
  | IntraOnly
  | Switch
  deriving DecidableEq, Repr

/-- `FrameType::try_from` on a 2-bit value (always succeeds). -/
def FrameType.of_nat2 (v : Nat) : FrameType :=
  match v with
  | 0 => .Key
  | 1 => .Inter
  | 2 => .IntraOnly
  | _ => .Switch

/-- `FrameType::is_intra`. -/
def FrameType.is_intra : FrameType → Bool
  | .Key => true
  | .IntraOnly => true
  | _ => false

/-- The scaling-point loops of grain.rs: read `(value:8, scaling:8)`
pairs, pushing each into an ArrayVec of the given capacity. -/
def read_points (cap : Nat) : Nat → List (Nat × Nat) → PM (List (Nat × Nat))
  | 0, acc => pure acc
  | n + 1, acc => do
    let point_value ← takeB 8
    let point_scaling ← takeB 8
    if acc.length ≥ cap then pcrash
    else read_points cap n (acc ++ [(point_value, point_scaling)])

/-- The AR-coefficient loops of grain.rs: read `coeff_plus_128:8` and
store `coeff_plus_128 - 128`, pushing into an ArrayVec of the given
capacity. -/
def read_coeffs (cap : Nat) : Nat → List Int → PM (List Int)
  | 0, acc => pure acc
  | n + 1, acc => do
    let coeff_plus_128 ← takeB 8
    if acc.length ≥ cap then pcrash
    else read_coeffs cap n (acc ++ [(coeff_plus_128 : Int) - 128])

/-- The `update_grain` read: only inter frames code the bit; other frame
types always update. -/
def read_update_grain (frame_type : FrameType) : PM Bool :=
  if frame_type = FrameType.Inter then take_bool_bit else pure true

/-- The `chroma_scaling_from_luma` read: forced false for monochrome. -/
def read_cfl (monochrome : Bool) : PM Bool :=
  if monochrome then pure false else take_bool_bit

/-- The chroma scaling-point block: skipped (all empty/zero) for
monochrome, luma-derived scaling, or the 4:2:0 case with no luma points;
otherwise `num_cb_points:4` with its pairs then `num_cr_points:4` with
its pairs. -/
def read_chroma_points (monochrome chroma_scaling_from_luma : Bool)
    (subsampling : Nat × Nat) (num_y_points : Nat) :
    PM (List (Nat × Nat) × List (Nat × Nat) × Nat × Nat) :=
  if monochrome ∨ chroma_scaling_from_luma ∨
      (subsampling.1 = 1 ∧ subsampling.2 = 1 ∧ num_y_points = 0) then
    pure ([], [], 0, 0)
  else do
    let num_cb_points ← takeB 4
    let scaling_points_cb ← read_points 10 num_cb_points []
    let num_cr_points ← takeB 4
    let scaling_points_cr ← read_points 10 num_cr_points []
    pure (scaling_points_cb, scaling_points_cr, num_cb_points, num_cr_points)

/-- The luma AR-coefficient block: present only when there are luma
scaling points; also yields `num_pos_chroma`. -/
def read_y_coeffs (num_y_points num_pos_luma : Nat) : PM (List Int × Nat) :=
  if num_y_points > 0 then do
    let ar_coeffs_y ← read_coeffs 24 num_pos_luma []
    pure (ar_coeffs_y, num_pos_luma + 1)
  else
    pure ([], num_pos_luma)

/-- One chroma AR-coefficient block: `num_pos_chroma` coefficients when
luma-derived or point-coded, else the single placeholder 0 the source
pushes. -/
def read_chroma_coeffs (chroma_scaling_from_luma : Bool)
    (num_points num_pos_chroma : Nat) : PM (List Int) :=
  if chroma_scaling_from_luma ∨ num_points > 0 then
    read_coeffs 25 num_pos_chroma []
  else
    pure [0]

/-- One chroma multiplier block (`*_mult:8`, `*_luma_mult:8`,
`*_offset:9`), present only when that channel has scaling points. -/
def read_mults (num_points : Nat) : PM (Nat × Nat × Nat) :=
  if num_points > 0 then do
    let mult ← takeB 8
    let luma_mult ← takeB 8
    let offset ← takeB 9
    pure (mult, luma_mult, offset)
  else
    pure (0, 0, 0)

/-- The body of `film_grain_params` after the film-grain-allowed check:
from `apply_grain` to the final `UpdateGrain` construction, exactly in
grain.rs reading order (the inline conditionals of the source are the
named helper parsers above). -/
def film_grain_body (frame_type : FrameType) (monochrome : Bool)
    (subsampling : Nat × Nat) : PM FilmGrainHeader := do
  let apply_grain ← take_bool_bit
  if ¬apply_grain then
    pure .Disable
  else do
    let grain_seed ← takeB 16
    let update_grain ← read_update_grain frame_type
    if ¬update_grain then do
      let _film_grain_params_ref_idx ← takeB 3
      pure .CopyRefFrame
    else do
      let num_y_points ← takeB 4
      let scaling_points_y ← read_points 14 num_y_points []
      let chroma_scaling_from_luma ← read_cfl monochrome
      let cbcr ← read_chroma_points monochrome chroma_scaling_from_luma
        subsampling num_y_points
      let _grain_scaling_minus_8 ← takeB 2
      let ar_coeff_lag ← takeB 2
      let ycoeffs ← read_y_coeffs num_y_points
        (2 * ar_coeff_lag * (ar_coeff_lag + 1))
      let ar_coeffs_cb ← read_chroma_coeffs chroma_scaling_from_luma
        cbcr.2.2.1 ycoeffs.2
      let ar_coeffs_cr ← read_chroma_coeffs chroma_scaling_from_luma
        cbcr.2.2.2 ycoeffs.2
      let ar_coeff_shift_minus_6 ← takeB 2
      let grain_scale_shift ← takeB 2
      let cbm ← read_mults cbcr.2.2.1
      let crm ← read_mults cbcr.2.2.2
      let overlap_flag ← take_bool_bit
      let clip_to_restricted_range ← take_bool_bit
      pure (.UpdateGrain {
        grain_seed := grain_seed
        scaling_points_y := scaling_points_y
        scaling_points_cb := cbcr.1
        scaling_points_cr := cbcr.2.1
        scaling_shift := 8
        ar_coeff_lag := ar_coeff_lag
        ar_coeffs_y := ycoeffs.1
        ar_coeffs_cb := ar_coeffs_cb
        ar_coeffs_cr := ar_coeffs_cr
        ar_coeff_shift := ar_coeff_shift_minus_6 + 6
        cb_mult := cbm.1
        cb_luma_mult := cbm.2.1
        cb_offset := cbm.2.2
        cr_mult := crm.1
        cr_luma_mult := crm.2.1
        cr_offset := crm.2.2
        chroma_scaling_from_luma := chroma_scaling_from_luma
        grain_scale_shift := grain_scale_shift
        overlap_flag := overlap_flag
        clip_to_restricted_range := clip_to_restricted_range })

/-- `film_grain_params` from grain.rs: return `Disable` without reading
when film grain is not allowed, otherwise parse the grain body. -/
def film_grain_params (film_grain_allowed : Bool) (frame_type : FrameType)
    (monochrome : Bool) (subsampling : Nat × Nat) : PM FilmGrainHeader :=
  if ¬film_grain_allowed then pure .Disable
  else film_grain_body frame_type monochrome subsampling

/-- A concrete 31-bit grain sub-bitstream: apply_grain = 1, a zero seed,
no scaling points, `grain_scaling_minus_8` coded as 1, and all remaining
fields zero. -/
def grain_input_scaling1 : List Bool :=
  [true] ++ List.replicate 16 false ++ List.replicate 4 false ++
    [false, true] ++ List.replicate 8 false

/-- The post-condition used to verify claim C10: an outcome is either
not a successful UpdateGrain parse, or its scaling_shift is 8. -/
def shift8_post (out : POut FilmGrainHeader) : Prop :=
  ∀ p rest, out = POut.ok (.UpdateGrain p) rest → p.scaling_shift = 8

/-! ## Film grain writer and rewriter model (claim C1)

The rewrite-mode writer half of the frame parser is not present under
src/ (parser/frame.rs contains no WRITE path and the 7-argument
film_grain_params it calls is absent); the writer and the packet
assembler below are therefore modelled from the spec. -/

/-- Modelled from the spec: the writer's scaling-point block, mirroring
the reader's `(value:8, scaling:8)` pairs. -/
def write_points (pts : List (Nat × Nat)) : List Bool :=
  pts.flatMap (fun pr => natToBits 8 pr.1 ++ natToBits 8 pr.2)

/-- Modelled from the spec: the writer's AR-coefficient block, each
coefficient emitted as `coeff + 128` in 8 bits. -/
def write_coeffs (cs : List Int) : List Bool :=
  cs.flatMap (fun c => natToBits 8 (c + 128).toNat)

/-- Modelled from the spec: the film-grain sub-bitstream writer (§4.6
writer contract — the bit-for-bit mirror of the grain.rs reader),
producing the short form for Disable/CopyRefFrame and the full field
sequence for UpdateGrain.  Fields the reader discards (the coded
`grain_scaling_minus_8`, the CopyRefFrame seed and ref index) are not in
the parsed value, so the mirror writes their canonical values
(`scaling_shift - 8`, zero seed, zero index). -/
def write_film_grain_body (ft : FrameType) (mono : Bool) (ss : Nat × Nat) :
    FilmGrainHeader → List Bool
  | .Disable => [false]
  | .CopyRefFrame =>
    [true] ++ natToBits 16 0 ++ (if ft = FrameType.Inter then [false] else [])
      ++ natToBits 3 0
  | .UpdateGrain p =>
    [true] ++ natToBits 16 p.grain_seed
      ++ (if ft = FrameType.Inter then [true] else [])
      ++ natToBits 4 p.scaling_points_y.length ++ write_points p.scaling_points_y
      ++ (if mono then [] else [p.chroma_scaling_from_luma])
      ++ (if mono ∨ p.chroma_scaling_from_luma ∨
            (ss.1 = 1 ∧ ss.2 = 1 ∧ p.scaling_points_y.length = 0) then []
          else
            natToBits 4 p.scaling_points_cb.length
              ++ write_points p.scaling_points_cb
              ++ natToBits 4 p.scaling_points_cr.length
              ++ write_points p.scaling_points_cr)
      ++ natToBits 2 (p.scaling_shift - 8)
      ++ natToBits 2 p.ar_coeff_lag
      ++ write_coeffs p.ar_coeffs_y
      ++ (if p.chroma_scaling_from_luma ∨ p.scaling_points_cb.length > 0 then
            write_coeffs p.ar_coeffs_cb
          else [])
      ++ (if p.chroma_scaling_from_luma ∨ p.scaling_points_cr.length > 0 then
            write_coeffs p.ar_coeffs_cr
          else [])
      ++ natToBits 2 (p.ar_coeff_shift - 6)
      ++ natToBits 2 p.grain_scale_shift
      ++ (if p.scaling_points_cb.length > 0 then
            natToBits 8 p.cb_mult ++ natToBits 8 p.cb_luma_mult
              ++ natToBits 9 p.cb_offset
          else [])
      ++ (if p.scaling_points_cr.length > 0 then
            natToBits 8 p.cr_mult ++ natToBits 8 p.cr_luma_mult
              ++ natToBits 9 p.cr_offset
          else [])
      ++ [p.overlap_flag, p.clip_to_restricted_range]

/-- Well-formedness of a film-grain header with respect to the frame
context: exactly the headers the reader can produce with in-range fields,
so that the mirror writer reproduces a parseable bit sequence. -/
def wf_header (ft : FrameType) (mono : Bool) (ss : Nat × Nat) :
    FilmGrainHeader → Prop
  | .Disable => True
  | .CopyRefFrame => ft = FrameType.Inter
  | .UpdateGrain p =>
    p.grain_seed < 2 ^ 16 ∧
    p.scaling_points_y.length ≤ 14 ∧
    (∀ q ∈ p.scaling_points_y, q.1 < 256 ∧ q.2 < 256) ∧
    p.scaling_shift = 8 ∧
    (mono → p.chroma_scaling_from_luma = false) ∧
    (if mono ∨ p.chroma_scaling_from_luma ∨
        (ss.1 = 1 ∧ ss.2 = 1 ∧ p.scaling_points_y.length = 0) then
      p.scaling_points_cb = [] ∧ p.scaling_points_cr = []
    else
      p.scaling_points_cb.length ≤ 10 ∧
      (∀ q ∈ p.scaling_points_cb, q.1 < 256 ∧ q.2 < 256) ∧
      p.scaling_points_cr.length ≤ 10 ∧
      (∀ q ∈ p.scaling_points_cr, q.1 < 256 ∧ q.2 < 256)) ∧
    p.ar_coeff_lag < 4 ∧
    (if p.scaling_points_y.length > 0 then
      p.ar_coeffs_y.length = 2 * p.ar_coeff_lag * (p.ar_coeff_lag + 1) ∧
      (∀ c ∈ p.ar_coeffs_y, -128 ≤ c ∧ c < 128)
    else p.ar_coeffs_y = []) ∧
    (if p.chroma_scaling_from_luma ∨ p.scaling_points_cb.length > 0 then
      p.ar_coeffs_cb.length = 2 * p.ar_coeff_lag * (p.ar_coeff_lag + 1) +
        (if p.scaling_points_y.length > 0 then 1 else 0) ∧
      (∀ c ∈ p.ar_coeffs_cb, -128 ≤ c ∧ c < 128)
    else p.ar_coeffs_cb = [0]) ∧
    (if p.chroma_scaling_from_luma ∨ p.scaling_points_cr.length > 0 then
      p.ar_coeffs_cr.length = 2 * p.ar_coeff_lag * (p.ar_coeff_lag + 1) +
        (if p.scaling_points_y.length > 0 then 1 else 0) ∧
      (∀ c ∈ p.ar_coeffs_cr, -128 ≤ c ∧ c < 128)
    else p.ar_coeffs_cr = [0]) ∧
    6 ≤ p.ar_coeff_shift ∧ p.ar_coeff_shift < 10 ∧
    p.grain_scale_shift < 4 ∧
    (if p.scaling_points_cb.length > 0 then
      p.cb_mult < 256 ∧ p.cb_luma_mult < 256 ∧ p.cb_offset < 512
    else p.cb_mult = 0 ∧ p.cb_luma_mult = 0 ∧ p.cb_offset = 0) ∧
    (if p.scaling_points_cr.length > 0 then
      p.cr_mult < 256 ∧ p.cr_luma_mult < 256 ∧ p.cr_offset < 512
    else p.cr_mult = 0 ∧ p.cr_luma_mult = 0 ∧ p.cr_offset = 0)

/-- Modelled from the spec: the frame-level grain parse (the 7-argument
film_grain_params that frame.rs calls, absent from src/): if
`!film_grain_params_present || !(show_frame || showable_frame)` the grain
block is empty and Disable is returned; otherwise the grain.rs body is
parsed. -/
def film_grain_params_frame (present show_frame showable_frame : Bool)
    (ft : FrameType) (mono : Bool) (ss : Nat × Nat) : PM FilmGrainHeader :=
  if ¬present ∨ ¬(show_frame ∨ showable_frame) then pure .Disable
  else film_grain_body ft mono ss

/-- Modelled from the spec: the frame-level grain writer — empty when
grain is not allowed for the frame, otherwise the body writer. -/
def write_film_grain_frame (present show_frame showable_frame : Bool)
    (ft : FrameType) (mono : Bool) (ss : Nat × Nat)
    (hdr : FilmGrainHeader) : List Bool :=
  if ¬present ∨ ¬(show_frame ∨ showable_frame) then []
  else write_film_grain_body ft mono ss hdr

/-- Modelled from the spec: one item of a packet as the assembler sees
it — either an OBU passed through verbatim, or a frame header split as
(bits before the grain block, the grain block, bits after). -/
inductive PacketItem where
  | raw (bits : List Bool)
  | frame (present show_frame showable_frame : Bool) (ft : FrameType)
      (mono : Bool) (ss : Nat × Nat) (pre grain post : List Bool)
  deriving DecidableEq, Repr

/-- The bits of a packet item as they appear in the input. -/
def item_bits : PacketItem → List Bool
  | .raw bits => bits
  | .frame _ _ _ _ _ _ pre grain post => pre ++ grain ++ post

/-- Modelled from the spec: the identity-policy rewrite of one item —
raw OBUs are copied verbatim; a frame header's grain block is parsed and
re-emitted by the writer with its own parameters (the identity grain
policy); a parse failure or a grain block of the wrong extent aborts. -/
def rewrite_item : PacketItem → Option (List Bool)
  | .raw bits => some bits
  | .frame present show_frame showable_frame ft mono ss pre grain post =>
    match film_grain_params_frame present show_frame showable_frame ft mono ss
        grain with
    | .ok hdr rest =>
      if rest = [] then
        some (pre ++
          write_film_grain_frame present show_frame showable_frame ft mono ss
            hdr ++ post)
      else none
    | _ => none

/-- Modelled from the spec: the identity-policy rewrite of a whole
packet. -/
def rewrite_packet (packet : List PacketItem) : Option (List Bool) :=
  (packet.mapM rewrite_item).map List.flatten

/-- A packet item whose grain block is the canonical encoding of a
well-formed header. -/
def canonical_item : PacketItem → Prop
  | .raw _ => True
  | .frame present show_frame showable_frame ft mono ss _ grain _ =>
    ∃ hdr, wf_header ft mono ss hdr ∧
      grain = write_film_grain_frame present show_frame showable_frame ft mono
        ss hdr

/-! ## Frame header data model (src/parser/frame.rs, src/parser/sequence.rs)

Reference arrays of fixed length become functions out of Fin: the Rust
`[bool; NUM_REF_FRAMES]` etc.  Only the sequence-header fields the frame
parser reads are modelled (the color enums play no role in frame.rs). -/

def REFS_PER_FRAME : Nat := 7
def NUM_REF_FRAMES : Nat := 8
def REFRESH_ALL_FRAMES : Nat := 0xff
def PRIMARY_REF_NONE : Nat := 7
def SELECT_SCREEN_CONTENT_TOOLS : Nat := 2
def SELECT_INTEGER_MV : Nat := 2
def SUPERRES_DENOM_BITS : Nat := 3
def SUPERRES_DENOM_MIN : Nat := 9
def SUPERRES_NUM : Nat := 8
def MAX_TILE_WIDTH : Nat := 4096
def MAX_TILE_COLS : Nat := 64
def MAX_TILE_ROWS : Nat := 64
def MAX_TILE_AREA : Nat := 4096 * 2304
def MAX_SEGMENTS : Nat := 8
def SEG_LVL_MAX : Nat := 8
def SEG_LVL_ALT_Q : Nat := 0
def MAX_LOOP_FILTER : Nat := 63
def INTERP_FILTER_SWITCHABLE : Nat := 4
def RESTORE_NONE : Nat := 0
def TOTAL_REFS_PER_FRAME : Nat := 8

def SEGMENTATION_FEATURE_BITS : List Nat := [8, 6, 6, 6, 6, 3, 0, 0]
def SEGMENTATION_FEATURE_SIGNED : List Bool :=
  [true, true, true, true, true, false, false, false]
def SEGMENTATION_FEATURE_MAX : List Nat :=
  [255, MAX_LOOP_FILTER, MAX_LOOP_FILTER, MAX_LOOP_FILTER, MAX_LOOP_FILTER,
    7, 0, 0]

/-- `TimingInfo` (the field frame.rs reads). -/
structure TimingInfoL where
  equal_picture_interval : Bool
  deriving DecidableEq, Repr

/-- `DecoderModelInfo`. -/
structure DecoderModelInfoL where
  buffer_delay_length_minus_1 : Nat
  buffer_removal_time_length_minus_1 : Nat
  frame_presentation_time_length_minus_1 : Nat
  deriving DecidableEq, Repr

/-- `ColorConfig`, restricted to the fields the frame parser reads
(`num_planes`, `separate_uv_delta_q`, `subsampling`); the color enum
fields of sequence.rs are irrelevant to every embedded operation. -/
structure ColorConfigL where
  num_planes : Nat
  separate_uv_delta_q : Bool
  subsampling : Nat × Nat
  deriving DecidableEq, Repr

/-- `SequenceHeader` from sequence.rs (the fields frame.rs reads). -/
structure SequenceHeaderL where
  reduced_still_picture_header : Bool
  frame_id_numbers_present : Bool
  additional_frame_id_len_minus_1 : Nat
  delta_frame_id_len_minus_2 : Nat
  film_grain_params_present : Bool
  force_screen_content_tools : Nat
  force_integer_mv : Nat
  order_hint_bits : Nat
  frame_width_bits_minus_1 : Nat
  frame_height_bits_minus_1 : Nat
  max_frame_width_minus_1 : Nat
  max_frame_height_minus_1 : Nat
  decoder_model_info : Option DecoderModelInfoL
  decoder_model_present_for_op : List Bool
  operating_points_cnt_minus_1 : Nat
  operating_point_idc : List Nat
  cur_operating_point_idc : Nat
  timing_info : Option TimingInfoL
  enable_ref_frame_mvs : Bool
  enable_warped_motion : Bool
  enable_superres : Bool
  enable_cdef : Bool
  enable_restoration : Bool
  use_128x128_superblock : Bool
  color_config : ColorConfigL
  deriving DecidableEq, Repr

/-- `SequenceHeader::enable_order_hint()`. -/
def SequenceHeaderL.enable_order_hint (sh : SequenceHeaderL) : Bool :=
  sh.order_hint_bits > 0

/-- `TileInfo` from frame.rs. -/
structure TileInfoL where
  tile_cols : Nat
  tile_rows : Nat
  tile_cols_log2 : Nat
  tile_rows_log2 : Nat
  deriving DecidableEq, Repr

/-- `FrameHeader` from frame.rs. -/
structure FrameHeaderL where
  show_frame : Bool
  show_existing_frame : Bool
  film_grain_params : FilmGrainHeader
  tile_info : TileInfoL
  deriving DecidableEq, Repr

/-- `Dimensions` from frame.rs. -/
structure DimensionsL where
  width : Nat
  height : Nat
  deriving DecidableEq, Repr

/-- `ObuExtension`. -/
structure ObuExtensionL where
  temporal_id : Nat
  spatial_id : Nat
  deriving DecidableEq, Repr

/-- `ObuHeader` (the parts frame.rs reads). -/
structure ObuHeaderL where
  obu_type : Nat
  has_size_field : Bool
  extension : Option ObuExtensionL
  deriving DecidableEq, Repr

/-- The mutable cross-frame fields of `BitstreamParser` that the frame
parser touches. -/
structure RefState where
  seen_frame_header : Bool
  sequence_header : Option SequenceHeaderL
  previous_frame_header : Option FrameHeaderL
  ref_frame_idx : Fin 7 → Fin 8
  ref_order_hint : Fin 8 → Nat
  big_ref_order_hint : Fin 8 → Nat
  big_ref_valid : Fin 8 → Bool
  big_order_hints : Fin 8 → Nat
  deriving DecidableEq

/-! ## Pure frame-header sub-parsers (src/parser/frame.rs) -/

/-- `temporal_point_info`. -/
def temporal_point_info (frame_presentation_time_length : Nat) : PM Unit := do
  let _frame_presentation_time ← takeB frame_presentation_time_length
  pure ()

/-- `superres_params`: reads `use_superres`/`coded_denom`, then sets
`upscaled.width = frame.width` and rescales `frame.width`; returns the
two updated Dimensions (the source mutates them through &mut). -/
def superres_params_p (enable_superres : Bool) (fs us : DimensionsL) :
    PM (DimensionsL × DimensionsL) := do
  let use_superres ← if enable_superres then take_bool_bit else pure false
  let superres_denom ←
    if use_superres then do
      let coded_denom ← takeB SUPERRES_DENOM_BITS
      pure (coded_denom + SUPERRES_DENOM_MIN)
    else pure SUPERRES_NUM
  let us' := { us with width := fs.width }
  let fs' := { fs with
    width := (us'.width * SUPERRES_NUM + superres_denom / 2) / superres_denom }
  pure (fs', us')

/-- `frame_size`. -/
def frame_size_p (frame_size_override enable_superres : Bool)
    (frame_width_bits frame_height_bits : Nat) (max_frame_size : DimensionsL) :
    PM DimensionsL := do
  let wh ←
    if frame_size_override then do
      let width_minus_1 ← takeB frame_width_bits
      let height_minus_1 ← takeB frame_height_bits
      pure (width_minus_1 + 1, height_minus_1 + 1)
    else pure (max_frame_size.width, max_frame_size.height)
  let r ← superres_params_p enable_superres ⟨wh.1, wh.2⟩ ⟨wh.1, wh.2⟩
  pure r.1

/-- `render_size` (reads render dimensions; mutates nothing). -/
def render_size_p (frame_size upscaled_size : DimensionsL) : PM DimensionsL := do
  let render_and_frame_size_different ← take_bool_bit
  if render_and_frame_size_different then do
    let render_width_minus_1 ← takeB 16
    let render_height_minus_1 ← takeB 16
    pure ⟨render_width_minus_1 + 1, render_height_minus_1 + 1⟩
  else pure ⟨upscaled_size.width, frame_size.height⟩

/-- The found_ref scan of `frame_size_with_refs`. -/
def found_ref_loop : Nat → PM Bool
  | 0 => pure false
  | n + 1 => do
    let found_this_ref ← take_bool_bit
    if found_this_ref then pure true else found_ref_loop n

/-- `frame_size_with_refs`: returns the frame size and the final
`ref_upscaled_size`. -/
def frame_size_with_refs_p (enable_superres frame_size_override : Bool)
    (frame_width_bits frame_height_bits : Nat)
    (max_frame_size ref_frame_size ref_upscaled_size : DimensionsL) :
    PM (DimensionsL × DimensionsL) := do
  let found_ref ← found_ref_loop REFS_PER_FRAME
  if found_ref then
    superres_params_p enable_superres ref_frame_size ref_upscaled_size
  else do
    let fs ← frame_size_p frame_size_override enable_superres
      frame_width_bits frame_height_bits max_frame_size
    let _render ← render_size_p fs ref_upscaled_size
    pure (fs, ref_upscaled_size)

/-- `compute_image_size`. -/
def compute_image_size (frame_size : DimensionsL) : Nat × Nat :=
  (2 * ((frame_size.width + 7) >>> 3), 2 * ((frame_size.height + 7) >>> 3))

/-- `read_interpolation_filter`. -/
def read_interpolation_filter_p : PM Unit := do
  let is_filter_switchable ← take_bool_bit
  let _interpolation_filter ←
    if is_filter_switchable then pure INTERP_FILTER_SWITCHABLE else takeB 2
  pure ()

/-- `tile_log2`: smallest k with `blk_size << k >= target`; fuel `target`
suffices for every call site (blk_size >= 1 there; the Rust loop would
not terminate for blk_size = 0 and target > 0, which is unreachable). -/
def tile_log2_go (blk target : Nat) : Nat → Nat → Nat
  | 0, k => k
  | fuel + 1, k => if blk <<< k < target then tile_log2_go blk target fuel (k + 1) else k

/-- `tile_log2`. -/
def tile_log2 (blk target : Nat) : Nat := tile_log2_go blk target target 0

/-- The `increment_tile_cols_log2` style loop: up to `remaining` one-bit
increments. -/
def incr_log2_loop : Nat → Nat → PM Nat
  | 0, cur => pure cur
  | remaining + 1, cur => do
    let increment ← take_bool_bit
    if increment then incr_log2_loop remaining (cur + 1) else pure cur

/-- The value of `tile_cols` produced by
`for i in (0..n).step_by(w) { tile_cols = i + 1 }`: one past the last
multiple of `w` below `n` (0 when the loop does not run; `w = 0` would
panic in Rust and is unreachable). -/
def step_by_last_plus_one (n w : Nat) : Nat :=
  if n = 0 ∨ w = 0 then 0 else ((n - 1) / w) * w + 1

/-- The non-uniform tile column carving loop; fuel `sb_cols` suffices as
every iteration advances `start_sb` by at least one. -/
def carve_cols_loop (sb_cols max_tile_width_sb : Nat) :
    Nat → Nat → Nat → Nat → PM (Nat × Nat)
  | 0, start_sb, i, widest =>
    if start_sb < sb_cols then pcrash else pure (i, widest)
  | fuel + 1, start_sb, i, widest =>
    if start_sb < sb_cols then do
      let max_width := min (sb_cols - start_sb) max_tile_width_sb
      let width_in_sbs_minus_1 ← ns max_width
      let size_sb := width_in_sbs_minus_1 + 1
      carve_cols_loop sb_cols max_tile_width_sb fuel (start_sb + size_sb)
        (i + 1) (max size_sb widest)
    else pure (i, widest)

/-- The non-uniform tile row carving loop. -/
def carve_rows_loop (sb_rows max_tile_height_sb : Nat) :
    Nat → Nat → Nat → PM Nat
  | 0, start_sb, i => if start_sb < sb_rows then pcrash else pure i
  | fuel + 1, start_sb, i =>
    if start_sb < sb_rows then do
      let max_height := min (sb_rows - start_sb) max_tile_height_sb
      let height_in_sbs_minus_1 ← ns max_height
      carve_rows_loop sb_rows max_tile_height_sb fuel
        (start_sb + (height_in_sbs_minus_1 + 1)) (i + 1)
    else pure i

/-- The tail of `tile_info`: the asserts on the tile counts
(modelled as crash) and the `context_update_tile_id` block. -/
def finish_tiles (tile_cols tile_rows tile_cols_log2 tile_rows_log2 : Nat) :
    PM TileInfoL :=
  if tile_cols = 0 ∨ tile_rows = 0 then pcrash
  else do
    let _ ←
      if tile_cols_log2 > 0 ∨ tile_rows_log2 > 0 then do
        let _context_update_tile_id ← takeB (tile_rows_log2 + tile_cols_log2)
        takeB 2
      else pure 0
    pure ⟨tile_cols, tile_rows, tile_cols_log2, tile_rows_log2⟩

/-- `tile_info` from frame.rs. -/
def tile_info_parse (use_128x128_superblock : Bool) (mi_cols mi_rows : Nat) :
    PM TileInfoL := do
  let sb_cols := if use_128x128_superblock then (mi_cols + 31) >>> 5
    else (mi_cols + 15) >>> 4
  let sb_rows := if use_128x128_superblock then (mi_rows + 31) >>> 5
    else (mi_rows + 15) >>> 4
  let sb_shift := if use_128x128_superblock then 5 else 4
  let sb_size := sb_shift + 2
  let max_tile_width_sb := MAX_TILE_WIDTH >>> sb_size
  let max_tile_area_sb := MAX_TILE_AREA >>> (2 * sb_size)
  let min_log2_tile_cols := tile_log2 max_tile_width_sb sb_cols
  let max_log2_tile_cols := tile_log2 1 (min sb_cols MAX_TILE_COLS)
  let max_log2_tile_rows := tile_log2 1 (min sb_rows MAX_TILE_ROWS)
  let min_log2_tiles := max min_log2_tile_cols
    (tile_log2 max_tile_area_sb (sb_rows * sb_cols))
  let uniform_tile_spacing_flag ← take_bool_bit
  if uniform_tile_spacing_flag then do
    let tile_cols_log2 ← incr_log2_loop (max_log2_tile_cols - min_log2_tile_cols)
      min_log2_tile_cols
    let tile_width_sb := (sb_cols + (1 <<< tile_cols_log2) - 1) >>> tile_cols_log2
    let tile_cols := step_by_last_plus_one sb_cols tile_width_sb
    let min_log2_tile_rows := min_log2_tiles - tile_cols_log2
    let tile_rows_log2 ← incr_log2_loop (max_log2_tile_rows - min_log2_tile_rows)
      min_log2_tile_rows
    let tile_height_sb := (sb_rows + (1 <<< tile_rows_log2) - 1) >>> tile_rows_log2
    let tile_rows := step_by_last_plus_one sb_rows tile_height_sb
    finish_tiles tile_cols tile_rows tile_cols_log2 tile_rows_log2
  else do
    let cw ← carve_cols_loop sb_cols max_tile_width_sb sb_cols 0 0 0
    let max_tile_height_sb := max (max_tile_area_sb / cw.2) 1
    let tile_rows ← carve_rows_loop sb_rows max_tile_height_sb sb_rows 0 0
    finish_tiles cw.1 tile_rows (tile_log2 1 cw.1) (tile_log2 1 tile_rows)

/-- `QuantizationParams`. -/
structure QuantizationParamsL where
  base_q_idx : Nat
  deltaq_y_dc : Int
  deltaq_u_dc : Int
  deltaq_u_ac : Int
  deltaq_v_dc : Int
  deltaq_v_ac : Int
  deriving DecidableEq, Repr

/-- `read_delta_q`. -/
def read_delta_q : PM Int := do
  let delta_coded ← take_bool_bit
  if delta_coded then su (1 + 6) else pure 0

/-- `quantization_params`. -/
def quantization_params (num_planes : Nat) (separate_uv_delta_q : Bool) :
    PM QuantizationParamsL := do
  let base_q_idx ← takeB 8
  let deltaq_y_dc ← read_delta_q
  let uv ←
    if num_planes > 1 then do
      let diff_uv_delta ← if separate_uv_delta_q then take_bool_bit else pure false
      let deltaq_u_dc ← read_delta_q
      let deltaq_u_ac ← read_delta_q
      if diff_uv_delta then do
        let deltaq_v_dc ← read_delta_q
        let deltaq_v_ac ← read_delta_q
        pure (deltaq_u_dc, deltaq_u_ac, deltaq_v_dc, deltaq_v_ac)
      else pure (deltaq_u_dc, deltaq_u_ac, deltaq_u_dc, deltaq_u_ac)
    else pure (0, 0, 0, 0)
  let using_qmatrix ← take_bool_bit
  let _ ←
    if using_qmatrix then do
      let _qm_y ← takeB 4
      let qm_u ← takeB 4
      if separate_uv_delta_q then takeB 4 else pure qm_u
    else pure 0
  pure ⟨base_q_idx, deltaq_y_dc, uv.1, uv.2.1, uv.2.2.1, uv.2.2.2⟩

/-- Per-segment-feature data: 8 segments of 8 optional feature values. -/
def SegData : Type := List (List (Option Int))

/-- The per-feature read of `segmentation_params` for feature index j. -/
def read_feature (j : Nat) : PM (Option Int) := do
  let feature_enabled ← take_bool_bit
  if feature_enabled then
    let bits_to_read := SEGMENTATION_FEATURE_BITS.getD j 0
    let limit : Int := SEGMENTATION_FEATURE_MAX.getD j 0
    if SEGMENTATION_FEATURE_SIGNED.getD j false then do
      let value ← su (1 + bits_to_read)
      pure (some (max (-limit) (min value limit)))
    else do
      let value ← takeB bits_to_read
      pure (some (max 0 (min (value : Int) limit)))
  else pure none

/-- One segment's row of 8 features. -/
def read_feature_row : List Nat → PM (List (Option Int))
  | [] => pure []
  | j :: rest => do
    let v ← read_feature j
    let vs ← read_feature_row rest
    pure (v :: vs)

/-- All 8 segments. -/
def read_seg_rows : Nat → PM SegData
  | 0 => pure []
  | n + 1 => do
    let row ← read_feature_row (List.range SEG_LVL_MAX)
    let rows ← read_seg_rows n
    pure (row :: rows)

/-- The `segmentation_update_data` determination of `segmentation_params`. -/
def read_seg_update_data (primary_ref_frame : Nat) : PM Bool :=
  if primary_ref_frame = PRIMARY_REF_NONE then pure true
  else do
    let segmentation_update_map ← take_bool_bit
    if segmentation_update_map then do
      let _segmentation_temporal_update ← take_bool_bit
      take_bool_bit
    else take_bool_bit

/-- `segmentation_params`: returns the feature table when segmentation is
enabled (all-None when enabled without update data). -/
def segmentation_params_p (primary_ref_frame : Nat) : PM (Option SegData) := do
  let segmentation_enabled ← take_bool_bit
  if segmentation_enabled then do
    let segmentation_update_data ← read_seg_update_data primary_ref_frame
    if segmentation_update_data then do
      let data ← read_seg_rows MAX_SEGMENTS
      pure (some data)
    else
      pure (some (List.replicate MAX_SEGMENTS
        (List.replicate SEG_LVL_MAX none)))
  else pure none

/-- `delta_q_params`; returns `delta_q_present`. -/
def delta_q_params_p (base_q_idx : Nat) : PM Bool := do
  let delta_q_present ← if base_q_idx > 0 then take_bool_bit else pure false
  let _delta_q_res ← if delta_q_present then takeB 2 else pure 0
  pure delta_q_present

/-- `delta_lf_params`. -/
def delta_lf_params_p (delta_q_present allow_intrabc : Bool) : PM Unit :=
  if delta_q_present then do
    let delta_lf_present ← if allow_intrabc then pure false else take_bool_bit
    if delta_lf_present then do
      let _delta_lf_res ← takeB 2
      let _delta_lf_multi ← take_bool_bit
      pure ()
    else pure ()
  else pure ()

/-- `seg_feature_active_idx`. -/
def seg_feature_active_idx (segment_id feature : Nat)
    (feature_data : Option SegData) : Bool :=
  match feature_data with
  | some data => ((data.getD segment_id []).getD feature none).isSome
  | none => false

/-- `get_qindex`. -/
def get_qindex (ignore_delta_q : Bool) (segment_id : Nat) (base_q_idx : Nat)
    (current_q_index : Option Nat) (feature_data : Option SegData) : Nat :=
  if seg_feature_active_idx segment_id SEG_LVL_ALT_Q feature_data then
    let data := ((feature_data.getD []).getD segment_id []).getD SEG_LVL_ALT_Q
      none |>.getD 0
    let qindex : Int := (base_q_idx : Int) + data
    let qindex : Int :=
      if ¬ignore_delta_q then
        match current_q_index with
        | some c => (c : Int) + data
        | none => qindex
      else qindex
    (max 0 (min qindex 255)).toNat
  else if ¬ignore_delta_q ∧ current_q_index.isSome then current_q_index.getD 0
  else base_q_idx

/-- The ref/mode delta loops of `loop_filter_params`. -/
def lf_delta_loop : Nat → PM Unit
  | 0 => pure ()
  | n + 1 => do
    let update_delta ← take_bool_bit
    let _ ← if update_delta then su (1 + 6) else pure 0
    lf_delta_loop n

/-- `loop_filter_params`. -/
def loop_filter_params_p (coded_lossless allow_intrabc : Bool)
    (num_planes : Nat) : PM Unit :=
  if coded_lossless ∨ allow_intrabc then pure ()
  else do
    let loop_filter_l0 ← takeB 6
    let loop_filter_l1 ← takeB 6
    let _ ←
      if num_planes > 1 ∧ (loop_filter_l0 > 0 ∨ loop_filter_l1 > 0) then do
        let _loop_filter_l2 ← takeB 6
        takeB 6
      else pure 0
    let _loop_filter_sharpness ← takeB 3
    let loop_filter_delta_enabled ← take_bool_bit
    if loop_filter_delta_enabled then do
      let loop_filter_delta_update ← take_bool_bit
      if loop_filter_delta_update then do
        lf_delta_loop TOTAL_REFS_PER_FRAME
        lf_delta_loop 2
      else pure ()
    else pure ()

/-- The per-strength loop of `cdef_params`. -/
def cdef_loop (num_planes : Nat) : Nat → PM Unit
  | 0 => pure ()
  | n + 1 => do
    let _cdef_y_pri_str ← takeB 4
    let _cdef_y_sec_str ← takeB 2
    let _ ←
      if num_planes > 1 then do
        let _cdef_uv_pri_str ← takeB 4
        takeB 2
      else pure 0
    cdef_loop num_planes n

/-- `cdef_params`. -/
def cdef_params_p (coded_lossless allow_intrabc enable_cdef : Bool)
    (num_planes : Nat) : PM Unit :=
  if coded_lossless ∨ allow_intrabc ∨ ¬enable_cdef then pure ()
  else do
    let _cdef_damping_minus_3 ← takeB 2
    let cdef_bits ← takeB 2
    cdef_loop num_planes (1 <<< cdef_bits)

/-- The lr_type loop of `lr_params`: accumulates `uses_lr` and
`uses_chroma_lr` over the planes, `i` being the running plane index. -/
def lr_type_loop : Nat → Nat → Bool → Bool → PM (Bool × Bool)
  | 0, _, uses_lr, uses_chroma_lr => pure (uses_lr, uses_chroma_lr)
  | n + 1, i, uses_lr, uses_chroma_lr => do
    let lr_type ← takeB 2
    if lr_type ≠ RESTORE_NONE then
      lr_type_loop n (i + 1) true (uses_chroma_lr ∨ i > 0)
    else
      lr_type_loop n (i + 1) uses_lr uses_chroma_lr

/-- `lr_params`. -/
def lr_params_p (all_lossless allow_intrabc enable_restoration
    use_128x128_superblock : Bool) (num_planes : Nat)
    (subsampling : Nat × Nat) : PM Unit :=
  if all_lossless ∨ allow_intrabc ∨ ¬enable_restoration then pure ()
  else do
    let flags ← lr_type_loop num_planes 0 false false
    if flags.1 then do
      let _ ←
        if use_128x128_superblock then do
          let _lr_unit_shift ← take_bool_bit
          pure ()
        else do
          let lr_unit_shift ← take_bool_bit
          if lr_unit_shift then do
            let _lr_unit_extra_shift ← take_bool_bit
            pure ()
          else pure ()
      if subsampling.1 > 0 ∧ subsampling.2 > 0 ∧ flags.2 then do
        let _lr_uv_shift ← take_bool_bit
        pure ()
      else pure ()
    else pure ()

/-- `read_tx_mode`. -/
def read_tx_mode_p (coded_lossless : Bool) : PM Unit :=
  if coded_lossless then pure ()
  else do
    let _tx_mode_select ← take_bool_bit
    pure ()

/-- `frame_reference_mode`. -/
def frame_reference_mode_p (frame_is_intra : Bool) : PM Bool :=
  if frame_is_intra then pure false else take_bool_bit

/-- `get_relative_dist` (i64 bit arithmetic on Int). -/
def get_relative_dist (a b : Int) (order_hint_bits : Nat) : Int :=
  if order_hint_bits = 0 then 0
  else
    let diff := a - b
    let m : Int := ((2 ^ (order_hint_bits - 1) : Nat) : Int)
    Int.land diff (m - 1) - Int.land diff m

/-- `skip_mode_params`: the forward/backward scan over the seven
reference frames, then (when allowed) one `skip_mode_present` bit. -/
def skip_mode_params_p (frame_is_intra reference_select : Bool)
    (order_hint_bits order_hint : Nat) (ref_order_hint : Fin 8 → Nat)
    (ref_frame_idx : Fin 7 → Fin 8) : PM Unit :=
  let skip_mode_allowed :=
    if frame_is_intra ∨ ¬reference_select ∨ order_hint_bits = 0 then false
    else
      let fb := (List.finRange 7).foldl
        (fun (st : Int × Int × Int × Int) i =>
          let fidx := st.1
          let fhint := st.2.1
          let bidx := st.2.2.1
          let bhint := st.2.2.2
          let ref_hint : Int := ref_order_hint (ref_frame_idx i)
          if get_relative_dist ref_hint order_hint order_hint_bits < 0 then
            if fidx < 0 ∨ get_relative_dist ref_hint fhint order_hint_bits > 0 then
              (i.val, ref_hint, bidx, bhint)
            else st
          else if get_relative_dist ref_hint order_hint order_hint_bits > 0 ∧
              (bidx < 0 ∨ get_relative_dist ref_hint bhint order_hint_bits < 0) then
            (fidx, fhint, i.val, ref_hint)
          else st)
        (-1, -1, -1, -1)
      if fb.1 < 0 then false
      else if fb.2.2.1 ≥ 0 then true
      else
        let sf := (List.finRange 7).foldl
          (fun (st : Int × Int) i =>
            let ref_hint : Int := ref_order_hint (ref_frame_idx i)
            if get_relative_dist ref_hint fb.2.1 order_hint_bits < 0 ∧
                (st.1 < 0 ∨ get_relative_dist ref_hint st.2 order_hint_bits > 0) then
              (i.val, ref_hint)
            else st)
          (-1, -1)
        ¬(sf.1 < 0)
  if skip_mode_allowed then do
    let _skip_mode_present ← take_bool_bit
    pure ()
  else pure ()

/-- The per-reference loop of `global_motion_params`. -/
def gm_loop : Nat → PM Unit
  | 0 => pure ()
  | n + 1 => do
    let is_global ← take_bool_bit
    if is_global then do
      let is_rot_zoom ← take_bool_bit
      if is_rot_zoom then gm_loop n
      else do
        let _is_translation ← take_bool_bit
        gm_loop n
    else gm_loop n

/-- `global_motion_params`. -/
def global_motion_params_p (frame_is_intra : Bool) : PM Unit :=
  if frame_is_intra then pure () else gm_loop 7

/-! ## The frame header proper (`uncompressed_header`, `parse_frame_header`)

The method is split into pure stages (each a `PM` parser translated
statement-for-statement from frame.rs) plus explicit state transformers
for the five places where the Rust mutates `self`; `uncompressed_header`
threads them exactly in source order. -/

/-- The first block of `uncompressed_header`: everything up to and
including `error_resilient_mode`. `.inl ()` is the `show_existing_frame`
early return. -/
structure StageA where
  frame_type : FrameType
  show_frame : Bool
  showable_frame : Bool
  show_existing_frame : Bool
  error_resilient_mode : Bool
  deriving DecidableEq, Repr

def stage_a (sh : SequenceHeaderL) (id_len : Option Nat) :
    PM (Sum Unit StageA) :=
  if sh.reduced_still_picture_header then
    pure (.inr ⟨FrameType.Inter, true, true, false, false⟩)
  else do
    let show_existing_frame ← take_bool_bit
    if show_existing_frame then do
      let _frame_to_show_map_idx ← takeB 3
      let _display_frame_id ←
        match id_len with
        | some n => takeB n
        | none => pure 0
      pure (.inl ())
    else do
      let ft_val ← takeB 2
      let frame_type := FrameType.of_nat2 ft_val
      let show_frame ← take_bool_bit
      let _ ←
        if show_frame ∧ sh.decoder_model_info.isSome ∧
            ¬(sh.timing_info.elim false (fun ti => ti.equal_picture_interval)) then
          temporal_point_info
            ((sh.decoder_model_info.elim 0
              (fun d => d.frame_presentation_time_length_minus_1)) + 1)
        else pure ()
      let showable_frame ←
        if show_frame then pure (frame_type != FrameType.Key) else take_bool_bit
      let error_resilient_mode ←
        if frame_type = FrameType.Switch ∨
            (frame_type = FrameType.Key ∧ show_frame) then pure true
        else take_bool_bit
      pure (.inr ⟨frame_type, show_frame, showable_frame, false,
        error_resilient_mode⟩)

/-- frame.rs lines 200-208: the key+show reset of the reference arrays
(`big_ref_valid`, `big_ref_order_hint` fully; `big_order_hints` at
indices `RefType::Last as usize + i = 1 + i`, i in 0..7). -/
def key_show_reset (st : RefState) : RefState :=
  { st with
    big_ref_valid := fun _ => false
    big_ref_order_hint := fun _ => 0
    big_order_hints := fun j => if 1 ≤ j.val then 0 else st.big_order_hints j }

/-- The buffer-removal-time loop (frame.rs 249-263).  Faithful to the
source's threading quirk: the outer `input` is only advanced inside the
innermost conditional, so if no operating point triggers a read the
caller resumes BEFORE the `buffer_removal_time_present_flag` bit. -/
def buffer_removal_go (sh : SequenceHeaderL) (dmi : DecoderModelInfoL)
    (obu : ObuHeaderL) : List Nat → List Bool → List Bool → Option (List Bool)
  | [], outer, _ => some outer
  | op_num :: rest, outer, inner =>
    if sh.decoder_model_present_for_op.getD op_num false then
      let op_pt_idc := sh.operating_point_idc.getD op_num 0
      let temporal_id := obu.extension.elim 0 (fun e => e.temporal_id)
      let spatial_id := obu.extension.elim 0 (fun e => e.spatial_id)
      let in_temporal_layer := (op_pt_idc >>> temporal_id) &&& 1 > 0
      let in_spatial_layer := (op_pt_idc >>> (spatial_id + 8)) &&& 1 > 0
      if op_pt_idc = 0 ∨ (in_temporal_layer ∧ in_spatial_layer) then
        match takeB (dmi.buffer_removal_time_length_minus_1 + 1) inner with
        | .ok _ inner2 => buffer_removal_go sh dmi obu rest inner2 inner2
        | _ => none
      else buffer_removal_go sh dmi obu rest outer inner
    else buffer_removal_go sh dmi obu rest outer inner

/-- The `decoder_model_info` block of `uncompressed_header` (245-265). -/
def buffer_removal_section (sh : SequenceHeaderL) (obu : ObuHeaderL) :
    PM Unit := fun input =>
  match sh.decoder_model_info with
  | none => .ok () input
  | some dmi =>
    match take_bool_bit input with
    | .ok flag inner =>
      if flag then
        match buffer_removal_go sh dmi obu
            (List.range (sh.operating_points_cnt_minus_1 + 1)) input inner with
        | some out => .ok () out
        | none => .err
      else .ok () input
    | .err => .err
    | .crash => .crash

/-- The second block: `disable_cdf_update` through
`refresh_frame_flags`. -/
structure StageB where
  disable_cdf_update : Bool
  allow_screen_content_tools : Bool
  frame_size_override_flag : Bool
  order_hint : Nat
  primary_ref_frame : Nat
  refresh_frame_flags : Nat
  deriving DecidableEq, Repr

def stage_b (sh : SequenceHeaderL) (a : StageA) (id_len : Option Nat)
    (obu : ObuHeaderL) : PM StageB := do
  let disable_cdf_update ← take_bool_bit
  let allow_screen_content_tools ←
    if sh.force_screen_content_tools = SELECT_SCREEN_CONTENT_TOOLS then
      take_bool_bit
    else pure (sh.force_screen_content_tools == 1)
  let _ ←
    if allow_screen_content_tools ∧
        sh.force_integer_mv = SELECT_INTEGER_MV then do
      let _force_integer_mv ← take_bool_bit
      pure ()
    else pure ()
  let _ ←
    if sh.frame_id_numbers_present then do
      let _current_frame_id ← takeB (id_len.getD 0)
      pure ()
    else pure ()
  let frame_size_override_flag ←
    if a.frame_type = FrameType.Switch then pure true
    else if sh.reduced_still_picture_header then pure false
    else take_bool_bit
  let order_hint ← takeB sh.order_hint_bits
  let primary_ref_frame ←
    if a.frame_type.is_intra ∨ a.error_resilient_mode then pure PRIMARY_REF_NONE
    else takeB 3
  let _ ← buffer_removal_section sh obu
  let refresh_frame_flags ←
    if a.frame_type = FrameType.Switch ∨
        (a.frame_type = FrameType.Key ∧ a.show_frame) then
      pure REFRESH_ALL_FRAMES
    else takeB 8
  pure ⟨disable_cdf_update, allow_screen_content_tools,
    frame_size_override_flag, order_hint, primary_ref_frame,
    refresh_frame_flags⟩

/-- The error-resilient `ref_order_hint` loop (frame.rs 280-290): a
genuinely mid-parse mutation; on a failed read the state updated so far
is kept (the `?` propagates out of the method). -/
def hints_loop (bits : Nat) :
    List (Fin 8) → RefState → List Bool → Option (List Bool) × RefState
  | [], st, input => (some input, st)
  | i :: rest, st, input =>
    match takeB bits input with
    | .ok cur inp2 =>
      let st1 := { st with
        big_ref_order_hint :=
          Function.update st.big_ref_order_hint i (st.ref_order_hint i) }
      let st2 := { st1 with
        ref_order_hint := Function.update st1.ref_order_hint i cur }
      let st3 :=
        if st2.ref_order_hint i ≠ st2.big_ref_order_hint i then
          { st2 with
            big_ref_valid := Function.update st2.big_ref_valid i false }
        else st2
      hints_loop bits rest st3 inp2
    | _ => (none, st)

/-- The `frame_refs_short_signaling` block of the inter path
(frame.rs 320-332); `set_frame_refs` reads nothing. -/
def read_frss (sh : SequenceHeaderL) : PM Bool :=
  if sh.enable_order_hint then do
    let frame_refs_short_signaling ← take_bool_bit
    if frame_refs_short_signaling then do
      let _last_frame_idx ← takeB 3
      let _gold_frame_idx ← takeB 3
      pure frame_refs_short_signaling
    else pure frame_refs_short_signaling
  else pure false

/-- The `ref_frame_idx` loop (frame.rs 334-348): mutates
`self.ref_frame_idx` entry by entry, partial state kept on failure. -/
def ref_idx_loop (sh : SequenceHeaderL) (frss : Bool) :
    List (Fin 7) → RefState → List Bool → Option (List Bool) × RefState
  | [], st, input => (some input, st)
  | i :: rest, st, input =>
    if frss then
      ref_idx_loop sh frss rest
        { st with ref_frame_idx := Function.update st.ref_frame_idx i 0 } input
    else
      match takeB 3 input with
      | .ok v inp2 =>
        let st1 := { st with
          ref_frame_idx := Function.update st.ref_frame_idx i
            ⟨v % 8, Nat.mod_lt _ (by norm_num)⟩ }
        if sh.frame_id_numbers_present then
          match takeB (sh.delta_frame_id_len_minus_2 + 2) inp2 with
          | .ok _ inp3 => ref_idx_loop sh frss rest st1 inp3
          | _ => (none, st1)
        else ref_idx_loop sh frss rest st1 inp2
      | _ => (none, st)

/-- The intra-frame size/intrabc block (frame.rs 296-318): returns
`(allow_intrabc, frame_size, upscaled_size)`; `use_ref_frame_mvs` is
false on this path. -/
def stage_c_intra (sh : SequenceHeaderL) (b : StageB)
    (max_frame_size : DimensionsL) : PM (Bool × DimensionsL × DimensionsL) := do
  let fs ← frame_size_p b.frame_size_override_flag sh.enable_superres
    (sh.frame_width_bits_minus_1 + 1) (sh.frame_height_bits_minus_1 + 1)
    max_frame_size
  let us := fs
  let _render_size ← render_size_p fs us
  let allow_intrabc ←
    if b.allow_screen_content_tools ∧ us.width = fs.width then take_bool_bit
    else pure false
  pure (allow_intrabc, fs, us)

/-- The inter-path reads between the frame sizes and the
`big_order_hints` update (frame.rs 377-389): returns
`use_ref_frame_mvs`. -/
def inter_tail (sh : SequenceHeaderL) (a : StageA) : PM Bool := do
  let _allow_high_precision_mv ←
    if sh.force_integer_mv = 1 then pure false else take_bool_bit
  let _ ← read_interpolation_filter_p
  let _is_motion_mode_switchable ← take_bool_bit
  if a.error_resilient_mode ∨ ¬sh.enable_ref_frame_mvs then pure false
  else take_bool_bit

/-- frame.rs 390-395: `big_order_hints[RefType::Last + i] :=
big_ref_order_hint[ref_frame_idx[i]]` for i in 0..7. -/
def update_big_order_hints (st : RefState) : RefState :=
  { st with
    big_order_hints := fun j =>
      if h : 1 ≤ j.val then
        st.big_ref_order_hint (st.ref_frame_idx ⟨j.val - 1, by omega⟩)
      else st.big_order_hints j }

/-- The long pure tail of `uncompressed_header` (frame.rs 398-512):
from `compute_image_size` to `film_grain_params`; returns the tile info
and the film grain header.  The interleaved cdf/segment-id helpers read
nothing. -/
def stage_d (sh : SequenceHeaderL) (a : StageA) (b : StageB)
    (_use_ref_frame_mvs allow_intrabc : Bool)
    (frame_size upscaled_size : DimensionsL)
    (big_ref_order_hint : Fin 8 → Nat) (ref_frame_idx : Fin 7 → Fin 8) :
    PM (TileInfoL × FilmGrainHeader) := do
  let mi := compute_image_size frame_size
  let _disable_frame_end_update_cdf ←
    if sh.reduced_still_picture_header ∨ b.disable_cdf_update then pure true
    else take_bool_bit
  let tile_info ← tile_info_parse sh.use_128x128_superblock mi.1 mi.2
  let q_params ← quantization_params sh.color_config.num_planes
    sh.color_config.separate_uv_delta_q
  let segmentation_data ← segmentation_params_p b.primary_ref_frame
  let delta_q_present ← delta_q_params_p q_params.base_q_idx
  let _ ← delta_lf_params_p delta_q_present allow_intrabc
  let coded_lossless := (List.range MAX_SEGMENTS).all (fun segment_id =>
    decide (get_qindex true segment_id q_params.base_q_idx none
        segmentation_data = 0 ∧
      q_params.deltaq_y_dc = 0 ∧ q_params.deltaq_u_ac = 0 ∧
      q_params.deltaq_u_dc = 0 ∧ q_params.deltaq_v_ac = 0 ∧
      q_params.deltaq_v_dc = 0))
  let all_lossless := coded_lossless ∧ frame_size.width = upscaled_size.width
  let _ ← loop_filter_params_p coded_lossless allow_intrabc
    sh.color_config.num_planes
  let _ ← cdef_params_p coded_lossless allow_intrabc sh.enable_cdef
    sh.color_config.num_planes
  let _ ← lr_params_p all_lossless allow_intrabc sh.enable_restoration
    sh.use_128x128_superblock sh.color_config.num_planes
    sh.color_config.subsampling
  let _ ← read_tx_mode_p coded_lossless
  let reference_select ← frame_reference_mode_p a.frame_type.is_intra
  let _ ← skip_mode_params_p a.frame_type.is_intra reference_select
    sh.order_hint_bits b.order_hint big_ref_order_hint ref_frame_idx
  let _allow_warped_motion ←
    if a.frame_type.is_intra ∨ a.error_resilient_mode ∨
        ¬sh.enable_warped_motion then pure false
    else take_bool_bit
  let _reduced_tx_set ← take_bool_bit
  let _ ← global_motion_params_p a.frame_type.is_intra
  let film_grain ← film_grain_params_frame sh.film_grain_params_present
    a.show_frame a.showable_frame a.frame_type
    (sh.color_config.num_planes == 1) sh.color_config.subsampling
  pure (tile_info, film_grain)

/-- frame.rs 514-519: the end-of-header refresh of `big_ref_valid` /
`big_ref_order_hint` from `refresh_frame_flags`. -/
def apply_refresh (refresh_frame_flags order_hint : Nat) (st : RefState) :
    RefState :=
  { st with
    big_ref_valid := fun i =>
      if (refresh_frame_flags >>> i.val) &&& 1 = 1 then true
      else st.big_ref_valid i
    big_ref_order_hint := fun i =>
      if (refresh_frame_flags >>> i.val) &&& 1 = 1 then order_hint
      else st.big_ref_order_hint i }

/-- Outcome of `uncompressed_header` with the final mutable state.
`.crash` covers the `unwrap` panics; `.fail` is a nom parse error, with
the state as the method leaves it; on `.ok`, `refresh` records the
`(refresh_frame_flags, order_hint)` pair applied at end-of-header
(`none` on the show-existing early return). -/
inductive FHOutcome where
  | crash
  | fail (st : RefState)
  | ok (header : FrameHeaderL) (refresh : Option (Nat × Nat))
      (rest : List Bool) (st : RefState)
  deriving DecidableEq

/-- The `id_len` computed at the top of `uncompressed_header`. -/
def uh_id_len (sh : SequenceHeaderL) : Option Nat :=
  if sh.frame_id_numbers_present then
    some (sh.additional_frame_id_len_minus_1 +
      sh.delta_frame_id_len_minus_2 + 3)
  else none

/-- The conditional key+show reset (frame.rs 200-208) as a state
transformer. -/
def uh_key_reset (a : StageA) (st : RefState) : RefState :=
  if a.frame_type = FrameType.Key ∧ a.show_frame then key_show_reset st
  else st

/-- The conditional error-resilient hints loop (frame.rs 275-290). -/
def uh_hints (sh : SequenceHeaderL) (a : StageA) (b : StageB)
    (st : RefState) (input : List Bool) : Option (List Bool) × RefState :=
  if (¬a.frame_type.is_intra ∨ b.refresh_frame_flags ≠ REFRESH_ALL_FRAMES) ∧
      a.error_resilient_mode ∧ sh.enable_order_hint then
    hints_loop sh.order_hint_bits (List.finRange 8) st input
  else (some input, st)

/-- frame.rs 292-295. -/
def uh_max_frame_size (sh : SequenceHeaderL) : DimensionsL :=
  ⟨sh.max_frame_width_minus_1 + 1, sh.max_frame_height_minus_1 + 1⟩

/-- The inter-path frame-size block (frame.rs 349-376): returns
`(frame_size, upscaled_size)`. -/
def inter_frame_sizes (sh : SequenceHeaderL) (a : StageA) (b : StageB) :
    PM (DimensionsL × DimensionsL) :=
  if b.frame_size_override_flag ∧ ¬a.error_resilient_mode then
    frame_size_with_refs_p sh.enable_superres b.frame_size_override_flag
      (sh.frame_width_bits_minus_1 + 1) (sh.frame_height_bits_minus_1 + 1)
      (uh_max_frame_size sh) (uh_max_frame_size sh) (uh_max_frame_size sh)
  else do
    let fs ← frame_size_p b.frame_size_override_flag sh.enable_superres
      (sh.frame_width_bits_minus_1 + 1) (sh.frame_height_bits_minus_1 + 1)
      (uh_max_frame_size sh)
    let _render_size ← render_size_p fs fs
    pure (fs, fs)

/-- `BitstreamParser::uncompressed_header` (frame.rs 119-527). -/
def uncompressed_header (st : RefState) (input : List Bool)
    (obu : ObuHeaderL) : FHOutcome :=
  match st.sequence_header with
  | none => .crash
  | some sh =>
    match stage_a sh (uh_id_len sh) input with
    | .err => .fail st
    | .crash => .crash
    | .ok (.inl ()) rest =>
      match st.previous_frame_header with
      | none => .crash
      | some prev =>
        .ok ⟨true, true, .CopyRefFrame, prev.tile_info⟩ none rest st
    | .ok (.inr a) input1 =>
      match stage_b sh a (uh_id_len sh) obu input1 with
      | .err => .fail (uh_key_reset a st)
      | .crash => .crash
      | .ok b input2 =>
        match uh_hints sh a b (uh_key_reset a st) input2 with
        | (none, st2) => .fail st2
        | (some input3, st2) =>
          if a.frame_type.is_intra then
            match stage_c_intra sh b (uh_max_frame_size sh) input3 with
            | .err => .fail st2
            | .crash => .crash
            | .ok (allow_intrabc, fs, us) input4 =>
              match stage_d sh a b false allow_intrabc fs us
                  st2.big_ref_order_hint st2.ref_frame_idx input4 with
              | .err => .fail st2
              | .crash => .crash
              | .ok (tile_info, film_grain) rest =>
                .ok ⟨a.show_frame, a.show_existing_frame, film_grain,
                    tile_info⟩
                  (some (b.refresh_frame_flags, b.order_hint)) rest
                  (apply_refresh b.refresh_frame_flags b.order_hint st2)
          else
            match read_frss sh input3 with
            | .err => .fail st2
            | .crash => .crash
            | .ok frss input4 =>
              match ref_idx_loop sh frss (List.finRange 7) st2 input4 with
              | (none, st3) => .fail st3
              | (some input5, st3) =>
                match inter_frame_sizes sh a b input5 with
                | .err => .fail st3
                | .crash => .crash
                | .ok (fs, us) input6 =>
                  match inter_tail sh a input6 with
                  | .err => .fail st3
                  | .crash => .crash
                  | .ok use_ref_frame_mvs input7 =>
                    match stage_d sh a b use_ref_frame_mvs false fs us
                        (update_big_order_hints st3).big_ref_order_hint
                        (update_big_order_hints st3).ref_frame_idx input7 with
                    | .err => .fail (update_big_order_hints st3)
                    | .crash => .crash
                    | .ok (tile_info, film_grain) rest =>
                      .ok ⟨a.show_frame, a.show_existing_frame, film_grain,
                          tile_info⟩
                        (some (b.refresh_frame_flags, b.order_hint)) rest
                        (apply_refresh b.refresh_frame_flags b.order_hint
                          (update_big_order_hints st3))

/-- Outcome of `parse_frame_header`. -/
inductive PFHOutcome where
  | crash
  | fail (st : RefState)
  | ok (val : Option FrameHeaderL) (rest : List Bool) (st : RefState)
  deriving DecidableEq

/-- `BitstreamParser::parse_frame_header` (frame.rs 94-115):
early-returns `Ok(None)` when `seen_frame_header` is set, otherwise sets
it and runs `uncompressed_header`; `decode_frame_wrapup` reads
nothing. -/
def parse_frame_header (st : RefState) (input : List Bool)
    (obu : ObuHeaderL) : PFHOutcome :=
  if st.seen_frame_header then .ok none input st
  else
    let st0 := { st with seen_frame_header := true }
    match uncompressed_header st0 input obu with
    | .crash => .crash
    | .fail st1 => .fail st1
    | .ok header _refresh rest st1 =>
      if header.show_existing_frame then
        let st2 := { st1 with seen_frame_header := false }
        .ok (if header.show_frame then some header else none) rest st2
      else
        let st2 := { st1 with seen_frame_header := true }
        .ok (if header.show_frame then some header else none) rest st2

/-- Projection: the final state of an `.ok` outcome. -/
def FHOutcome.okState : FHOutcome → Option RefState
  | .ok _ _ _ st => some st
  | _ => none

/-- Projection: the final state of a `.fail` outcome. -/
def FHOutcome.failState : FHOutcome → Option RefState
  | .fail st => some st
  | _ => none

/-- Projection: the `big_ref_valid` array of an `.ok` outcome's state. -/
def FHOutcome.okValids (o : FHOutcome) : Option (List Bool) :=
  o.okState.map (fun s => (List.finRange 8).map s.big_ref_valid)

/-- Projection: the `big_ref_valid` array of a `.fail` outcome's state. -/
def FHOutcome.failValids (o : FHOutcome) : Option (List Bool) :=
  o.failState.map (fun s => (List.finRange 8).map s.big_ref_valid)

/-- Projection: the refresh ghost data of an `.ok` outcome. -/
def FHOutcome.okRefresh : FHOutcome → Option (Option (Nat × Nat))
  | .ok _ refresh _ _ => some refresh
  | _ => none

/-- A minimal sequence header: no frame ids, no order hints, no decoder
model, 16x16 max frame, monochrome-free single-plane 4:2:0 color. -/
def sh0 : SequenceHeaderL :=
  { reduced_still_picture_header := false
    frame_id_numbers_present := false
    additional_frame_id_len_minus_1 := 0
    delta_frame_id_len_minus_2 := 0
    film_grain_params_present := false
    force_screen_content_tools := 0
    force_integer_mv := 0
    order_hint_bits := 0
    frame_width_bits_minus_1 := 3
    frame_height_bits_minus_1 := 3
    max_frame_width_minus_1 := 15
    max_frame_height_minus_1 := 15
    decoder_model_info := none
    decoder_model_present_for_op := [false]
    operating_points_cnt_minus_1 := 0
    operating_point_idc := [0]
    cur_operating_point_idc := 0
    timing_info := none
    enable_ref_frame_mvs := false
    enable_warped_motion := false
    enable_superres := false
    enable_cdef := false
    enable_restoration := false
    use_128x128_superblock := false
    color_config := ⟨1, false, (1, 1)⟩ }

/-- A frame-header OBU header (type 3, no extension). -/
def obu0 : ObuHeaderL := ⟨3, true, none⟩

/-- A parser state with every reference slot marked valid. -/
def st_c2 : RefState :=
  { seen_frame_header := false
    sequence_header := some sh0
    previous_frame_header := none
    ref_frame_idx := fun _ => 0
    ref_order_hint := fun _ => 0
    big_ref_order_hint := fun _ => 7
    big_ref_valid := fun _ => true
    big_order_hints := fun _ => 5 }

/-- Four bits: show_existing 0, frame_type 00 (Key), show_frame 1 — then
EOF, so the very next read (`disable_cdf_update`) fails. -/
def c2_input : List Bool := [false, false, false, true]

/-- A parser state with every reference slot invalid and all hints 0. -/
def st_c3 : RefState :=
  { seen_frame_header := false
    sequence_header := some sh0
    previous_frame_header := none
    ref_frame_idx := fun _ => 0
    ref_order_hint := fun _ => 0
    big_ref_order_hint := fun _ => 0
    big_ref_valid := fun _ => false
    big_order_hints := fun _ => 0 }

/-- A complete 20-bit key+show frame header under `sh0`:
show_existing 0, frame_type 00, show_frame 1, disable_cdf_update 1,
frame_size_override 0, render_size_different 0, uniform_tile_spacing 1,
base_q_idx 00000000, delta_coded 0, using_qmatrix 0,
segmentation_enabled 0, reduced_tx_set 0. -/
def c3_input : List Bool :=
  [false, false, false, true, true, false, false, true] ++
    List.replicate 8 false ++ [false, false, false, false]

/-- The frame header parsed from `c3_input`. -/
def fh_c3 : FrameHeaderL := ⟨true, false, .Disable, ⟨1, 1, 0, 0⟩⟩

/-- The state after the `c3_input` parse: key+show reset, then the
refresh loop with `refresh_frame_flags = 0xff`, `order_hint = 0`. -/
def st_c3_final : RefState := apply_refresh 255 0 (key_show_reset st_c3)

/-- A state that has already consumed a frame header this packet
(`seen_frame_header` set), with a remembered previous header. -/
def fh_prev : FrameHeaderL := ⟨true, false, .Disable, ⟨1, 1, 0, 0⟩⟩

def st_seen : RefState :=
  { seen_frame_header := true
    sequence_header := some sh0
    previous_frame_header := some fh_prev
    ref_frame_idx := fun _ => 0
    ref_order_hint := fun _ => 0
    big_ref_order_hint := fun _ => 0
    big_ref_valid := fun _ => false
    big_order_hints := fun _ => 0 }

/-- A state with no sequence header installed. -/
def st_noseq : RefState :=
  { seen_frame_header := false
    sequence_header := none
    previous_frame_header := none
    ref_frame_idx := fun _ => 0
    ref_order_hint := fun _ => 0
    big_ref_order_hint := fun _ => 0
    big_ref_valid := fun _ => false
    big_order_hints := fun _ => 0 }

/-- The C2 preservation relation: the sequence and previous-frame
headers are unchanged and `big_ref_valid` entries are only ever
cleared, never set. -/
def preservesC2 (st st' : RefState) : Prop :=
  st'.sequence_header = st.sequence_header ∧
  st'.previous_frame_header = st.previous_frame_header ∧
  ∀ i, st'.big_ref_valid i = true → st.big_ref_valid i = true

/-! ## Theorems -/

/-! ### Supporting bitwise lemmas -/

theorem or_shiftLeft_distrib (x y s : Nat) :
    (x ||| y) <<< s = (x <<< s) ||| (y <<< s) := by
  apply Nat.eq_of_testBit_eq
  intro i
  simp only [Nat.testBit_shiftLeft, Nat.testBit_or]
  by_cases h : s ≤ i <;> simp [h, Bool.and_or_distrib_left]

theorem and_127_eq_mod (x : Nat) : x &&& 0x7f = x % 128 := by
  have h : (0x7f : Nat) = 2 ^ 7 - 1 := by norm_num
  rw [h, Nat.and_pow_two_sub_one_eq_mod]

theorem and_128_eq_zero {x : Nat} (h : x < 128) : x &&& 0x80 = 0 := by
  have h2 : (0x80 : Nat) = 2 ^ 7 := by norm_num
  have hb : x.testBit 7 = false := Nat.testBit_lt_two_pow (by norm_num; omega)
  rw [h2, Nat.and_two_pow, hb]
  rfl

theorem or_128_and_128 (x : Nat) : (x ||| 0x80) &&& 0x80 = 0x80 := by
  have h2 : (0x80 : Nat) = 2 ^ 7 := by norm_num
  rw [h2, Nat.and_two_pow]
  have hb : (x ||| 2 ^ 7).testBit 7 = true := by
    rw [Nat.testBit_or, Nat.testBit_two_pow_self]
    exact Bool.or_true _
  rw [hb]
  simp

theorem or_128_and_127 (x : Nat) : (x ||| 0x80) &&& 0x7f = x &&& 0x7f := by
  rw [Nat.and_comm _ (0x7f : Nat), Nat.and_comm x (0x7f : Nat),
    Nat.and_or_distrib_left]
  have h0 : (0x7f : Nat) &&& 0x80 = 0 := by decide
  rw [h0, Nat.or_zero]

/-- Splitting a value at bit 7: low 7 bits ored with the rest shifted up. -/
theorem low_high_split (v s : Nat) :
    ((v &&& 0x7f) <<< s) ||| ((v >>> 7) <<< (s + 7)) = v <<< s := by
  rw [and_127_eq_mod, Nat.shiftRight_eq_div_pow]
  rw [Nat.shiftLeft_eq, Nat.shiftLeft_eq, Nat.shiftLeft_eq]
  have hlt : v % 128 * 2 ^ s < 2 ^ (s + 7) := by
    have h1 : v % 128 < 128 := Nat.mod_lt _ (by norm_num)
    have h2 : 2 ^ (s + 7) = 128 * 2 ^ s := by
      rw [pow_add]
      ring
    rw [h2]
    exact (Nat.mul_lt_mul_right (pow_pos (by norm_num) s)).mpr h1
  rw [Nat.or_comm, Nat.mul_comm (v / 2 ^ 7) (2 ^ (s + 7)), ← Nat.mul_add_lt_is_or hlt]
  have h128 : (128 : Nat) = 2 ^ 7 := by norm_num
  rw [h128]
  calc 2 ^ (s + 7) * (v / 2 ^ 7) + v % 2 ^ 7 * 2 ^ s
      = (2 ^ 7 * (v / 2 ^ 7) + v % 2 ^ 7) * 2 ^ s := by
        rw [pow_add]
        ring
    _ = v * 2 ^ s := by rw [Nat.div_add_mod]

/-! ### LEB128 round-trip (claim C4) -/

theorem leb128_write_length_le : ∀ k v, v < 2 ^ (7 * (k + 1)) →
    (leb128_write v).length ≤ k + 1 := by
  intro k
  induction k with
  | zero =>
    intro v hv
    have h7 : v >>> 7 = 0 := by
      rw [Nat.shiftRight_eq_div_pow]
      exact Nat.div_eq_of_lt (by norm_num at hv ⊢; omega)
    rw [leb128_write, dif_pos h7]
    simp
  | succ k ih =>
    intro v hv
    rw [leb128_write]
    by_cases h7 : v >>> 7 = 0
    · rw [dif_pos h7]
      simp
    · rw [dif_neg h7]
      simp only [List.length_cons]
      have hsplit : 2 ^ (7 * (k + 1 + 1)) = 2 ^ 7 * 2 ^ (7 * (k + 1)) := by
        rw [← pow_add]
        ring_nf
      have hlt : v >>> 7 < 2 ^ (7 * (k + 1)) := by
        rw [Nat.shiftRight_eq_div_pow]
        exact Nat.div_lt_of_lt_mul (hsplit ▸ hv)
      exact Nat.succ_le_succ (ih _ hlt)

theorem leb128_go_write (v : Nat) : ∀ fuel acc cnt shift rest,
    (leb128_write v).length ≤ fuel →
    leb128_go fuel acc cnt shift (leb128_write v ++ rest) =
      some ⟨acc ||| (v <<< shift), cnt + (leb128_write v).length, rest⟩ := by
  induction v using leb128_write.induct with
  | case1 v h7 =>
    intro fuel acc cnt shift rest hlen
    rw [leb128_write, dif_pos h7] at hlen ⊢
    match fuel, hlen with
    | fuel + 1, _ =>
      have hv128 : v < 128 := by
        rw [Nat.shiftRight_eq_div_pow] at h7
        have h2 := (Nat.div_eq_zero_iff (by norm_num : (0:Nat) < 2 ^ 7)).mp h7
        norm_num at h2
        exact h2
      simp only [List.cons_append, List.nil_append, leb128_go]
      rw [if_pos (and_128_eq_zero (by
        rw [and_127_eq_mod]
        exact Nat.mod_lt _ (by norm_num)))]
      have hmod : v &&& 0x7f = v := by
        rw [and_127_eq_mod]
        exact Nat.mod_eq_of_lt hv128
      rw [Nat.and_assoc, show (0x7f &&& 0x7f : Nat) = 0x7f by decide, hmod]
      simp
  | case2 v h7 ih =>
    intro fuel acc cnt shift rest hlen
    rw [leb128_write, dif_neg h7] at hlen ⊢
    match fuel, hlen with
    | fuel + 1, hlen =>
      simp only [List.cons_append, leb128_go]
      rw [if_neg (by rw [or_128_and_128]; norm_num)]
      rw [or_128_and_127]
      rw [ih fuel _ _ _ rest (by simpa using hlen)]
      simp only [List.length_cons]
      have hbytes : cnt + 1 + (leb128_write (v >>> 7)).length
          = cnt + ((leb128_write (v >>> 7)).length + 1) := by omega
      rw [Nat.and_assoc, show (0x7f &&& 0x7f : Nat) = 0x7f by decide,
        Nat.or_assoc, low_high_split, hbytes]

/-- C4 main lemma: write-then-read round trip. -/
theorem leb128_roundtrip (v : Nat) (hv : v < 2 ^ 32) :
    leb128 (leb128_write v) =
      some ⟨v, (leb128_write v).length, []⟩ ∧
    1 ≤ (leb128_write v).length ∧ (leb128_write v).length ≤ 5 := by
  have hlen : (leb128_write v).length ≤ 5 := by
    apply leb128_write_length_le 4 v
    calc v < 2 ^ 32 := hv
    _ ≤ 2 ^ (7 * 5) := by norm_num
  have hpos : 1 ≤ (leb128_write v).length := by
    rw [leb128_write]
    by_cases h7 : v >>> 7 = 0
    · rw [dif_pos h7]; simp
    · rw [dif_neg h7]; simp
  refine ⟨?_, hpos, hlen⟩
  have := leb128_go_write v 8 0 0 0 [] (by omega)
  rw [List.append_nil] at this
  rw [leb128, this]
  simp

/-! ### LEB128 reader characterization (claim C5) -/

theorem leb128_go_fail : ∀ fuel (input : List Nat) acc cnt shift,
    input.length < fuel → (∀ b ∈ input, b &&& 0x80 ≠ 0) →
    leb128_go fuel acc cnt shift input = none := by
  intro fuel
  induction fuel with
  | zero => intro input _ _ _ h; omega
  | succ fuel ih =>
    intro input acc cnt shift hlen hcont
    match input with
    | [] => rfl
    | b :: rest =>
      simp only [leb128_go]
      rw [if_neg (hcont b (List.mem_cons_self b rest))]
      apply ih
      · simpa using Nat.lt_of_succ_lt_succ hlen
      · intro x hx
        exact hcont x (List.mem_cons_of_mem b hx)

theorem leb128_go_success : ∀ fuel acc cnt shift (input : List Nat) res,
    leb128_go fuel acc cnt shift input = some res →
    ∃ k, k ≤ fuel ∧ (0 < fuel → input ≠ [] → 0 < k) ∧
      res.bytes_read = cnt + k ∧ res.rest = input.drop k ∧
      res.value = acc ||| (low7_concat (input.take k) <<< shift) := by
  intro fuel
  induction fuel with
  | zero =>
    intro acc cnt shift input res h
    simp only [leb128_go, Option.some.injEq] at h
    subst h
    exact ⟨0, le_refl 0, by omega, by simp, by simp, by simp [low7_concat]⟩
  | succ fuel ih =>
    intro acc cnt shift input res h
    match input with
    | [] => exact absurd h (by simp [leb128_go])
    | b :: rest =>
      simp only [leb128_go] at h
      by_cases hb : b &&& 0x80 = 0
      · rw [if_pos hb] at h
        simp only [Option.some.injEq] at h
        subst h
        exact ⟨1, by omega, by omega, by simp, by simp, by simp [low7_concat]⟩
      · rw [if_neg hb] at h
        obtain ⟨k, hk, _, hbr, hrest, hval⟩ := ih _ _ _ _ _ h
        refine ⟨k + 1, by omega, by omega, by omega, by simpa using hrest, ?_⟩
        have hsw : (low7_concat (List.take k rest) <<< 7) <<< shift
            = low7_concat (List.take k rest) <<< (shift + 7) := by
          rw [← Nat.shiftLeft_add, Nat.add_comm]
        rw [hval, List.take_succ_cons, low7_concat, or_shiftLeft_distrib, hsw,
          Nat.or_assoc]

theorem leb128_go_none : ∀ fuel acc cnt shift (input : List Nat),
    leb128_go fuel acc cnt shift input = none →
    input.length < fuel ∧ ∀ b ∈ input, b &&& 0x80 ≠ 0 := by
  intro fuel
  induction fuel with
  | zero =>
    intro acc cnt shift input h
    exact absurd h (by simp [leb128_go])
  | succ fuel ih =>
    intro acc cnt shift input h
    match input with
    | [] => exact ⟨by simp, by simp⟩
    | b :: rest =>
      simp only [leb128_go] at h
      by_cases hb : b &&& 0x80 = 0
      · rw [if_pos hb] at h
        exact absurd h (by simp)
      · rw [if_neg hb] at h
        obtain ⟨hlen, hcont⟩ := ih _ _ _ _ h
        refine ⟨by simpa using Nat.succ_lt_succ hlen, ?_⟩
        intro x hx
        rcases List.mem_cons.mp hx with hxb | hxr
        · subst hxb; exact hb
        · exact hcont x hxr

theorem leb128_go_all_cont : ∀ fuel acc cnt shift (input : List Nat),
    fuel ≤ input.length → (∀ b ∈ input.take fuel, b &&& 0x80 ≠ 0) →
    leb128_go fuel acc cnt shift input =
      some ⟨acc ||| (low7_concat (input.take fuel) <<< shift), cnt + fuel,
        input.drop fuel⟩ := by
  intro fuel
  induction fuel with
  | zero =>
    intro acc cnt shift input _ _
    simp [leb128_go, low7_concat]
  | succ fuel ih =>
    intro acc cnt shift input hlen hcont
    match input with
    | [] => simp at hlen
    | b :: rest =>
      have hb : b &&& 0x80 ≠ 0 := hcont b (by simp)
      simp only [leb128_go]
      rw [if_neg hb]
      rw [ih _ _ _ rest (by simpa using Nat.le_of_succ_le_succ hlen)
        (fun x hx => hcont x
          (by rw [List.take_succ_cons]; exact List.mem_cons_of_mem b hx))]
      simp only [List.take_succ_cons, List.drop_succ_cons, low7_concat,
        Option.some.injEq, LebResult.mk.injEq]
      have hsw : (low7_concat (List.take fuel rest) <<< 7) <<< shift
          = low7_concat (List.take fuel rest) <<< (shift + 7) := by
        rw [← Nat.shiftLeft_add, Nat.add_comm]
      refine ⟨?_, by omega, trivial⟩
      rw [or_shiftLeft_distrib, hsw, Nat.or_assoc]

/-- The reader fails on short all-continuation input; on success it
returns the low-7-bit little-endian concatenation of the consumed bytes,
which number between 1 and 8.  (The converse of the failure direction is
part of the C5 theorem below.) -/
theorem leb128_char (input : List Nat) :
    ((input.length < 8 ∧ ∀ b ∈ input, b &&& 0x80 ≠ 0) → leb128 input = none) ∧
    (∀ v n rest, leb128 input = some ⟨v, n, rest⟩ →
      1 ≤ n ∧ n ≤ 8 ∧ rest = input.drop n ∧ v = low7_concat (input.take n)) := by
  constructor
  · rintro ⟨hlen, hcont⟩
    exact leb128_go_fail 8 input 0 0 0 hlen hcont
  · intro v n rest h
    obtain ⟨k, hk, hkpos, hbr, hrest, hval⟩ := leb128_go_success 8 0 0 0 input ⟨v, n, rest⟩ h
    simp only at hbr hrest hval
    have hne : input ≠ [] := by
      intro he
      subst he
      simp [leb128, leb128_go] at h
    have hkp : 0 < k := hkpos (by omega) hne
    subst hbr
    simp only [Nat.zero_add] at hrest hval ⊢
    refine ⟨hkp, hk, hrest, ?_⟩
    simpa using hval

/-! ### Claim C4 -/

/-- C4: for every value v in 0..2^32, reading back the bytes produced by
the LEB128 writer yields exactly (v, len) where len is the number of bytes
written, len is in 1..=5, and no input bytes remain unconsumed. -/
theorem c4_leb128_write_read_roundtrip (v : Nat) (hv : v < 2 ^ 32) :
    leb128 (leb128_write v) =
      some ⟨v, (leb128_write v).length, []⟩ ∧
    1 ≤ (leb128_write v).length ∧ (leb128_write v).length ≤ 5 :=
  leb128_roundtrip v hv

/-- C4 witness: the round trip at the concrete value 4000000000, which
encodes to the maximal 5 bytes. -/
theorem c4_leb128_write_read_roundtrip_witness :
    (4000000000 : Nat) < 2 ^ 32 ∧
    (leb128 (leb128_write 4000000000) =
        some ⟨4000000000, (leb128_write 4000000000).length, []⟩ ∧
      1 ≤ (leb128_write 4000000000).length ∧
      (leb128_write 4000000000).length ≤ 5) :=
  ⟨by norm_num, c4_leb128_write_read_roundtrip 4000000000 (by norm_num)⟩

/-! ### Claim C5 -/

/-- C5 counterexample: an input of 8 bytes that all have the continuation
bit set does NOT make the reader fail — the loop simply stops after 8
bytes and returns value 0 with all 8 bytes consumed.  The claim that such
input "fails with a parse error" is therefore false on the code. -/
theorem c5_all_continuation_succeeds :
    leb128 (List.replicate 8 0x80) = some ⟨0, 8, []⟩ := by decide

/-- C5 (amended): the reader fails IF AND ONLY IF the input is shorter
than 8 bytes and every byte has the continuation bit set; whenever the
input has at least 8 bytes whose first 8 all have the continuation bit
set, it succeeds consuming exactly 8 bytes; and whenever it succeeds it
consumed between 1 and 8 bytes and returns the little-endian
concatenation of the low 7 bits of the consumed bytes. -/
theorem c5_leb128_reader_characterization (input : List Nat) :
    (leb128 input = none ↔
      (input.length < 8 ∧ ∀ b ∈ input, b &&& 0x80 ≠ 0)) ∧
    ((∀ b ∈ input.take 8, b &&& 0x80 ≠ 0) → 8 ≤ input.length →
      leb128 input = some ⟨low7_concat (input.take 8), 8, input.drop 8⟩) ∧
    (∀ v n rest, leb128 input = some ⟨v, n, rest⟩ →
      1 ≤ n ∧ n ≤ 8 ∧ rest = input.drop n ∧ v = low7_concat (input.take n)) := by
  refine ⟨⟨fun h => leb128_go_none 8 0 0 0 input h,
    fun h => leb128_go_fail 8 input 0 0 0 h.1 h.2⟩, ?_, (leb128_char input).2⟩
  intro hcont hlen
  have h := leb128_go_all_cont 8 0 0 0 input hlen hcont
  simpa [leb128] using h

/-- C5 witness: the characterization applied at three concrete inputs — a
short all-continuation input (which fails), a 9-byte input whose first 8
bytes all carry the continuation bit (which succeeds consuming exactly 8
bytes), and a two-byte terminated input (which succeeds with the
concatenated low-7-bit value 389). -/
theorem c5_leb128_reader_characterization_witness :
    leb128 [0x85] = none ∧
    leb128 (List.replicate 9 0x80) =
      some ⟨low7_concat (List.take 8 (List.replicate 9 0x80)), 8,
        List.drop 8 (List.replicate 9 0x80)⟩ ∧
    (1 ≤ 2 ∧ 2 ≤ 8 ∧ ([] : List Nat) = List.drop 2 [0x85, 0x03] ∧
      389 = low7_concat (List.take 2 [0x85, 0x03])) :=
  ⟨(c5_leb128_reader_characterization [0x85]).1.mpr ⟨by norm_num, by decide⟩,
   (c5_leb128_reader_characterization (List.replicate 9 0x80)).2.1
     (by decide) (by norm_num),
   (c5_leb128_reader_characterization [0x85, 0x03]).2.2 389 2 [] (by decide)⟩

/-! ### Timeline aggregator invariants (claims C6, C7) -/

/-- One aggregator step preserves the reversed-segment-list invariants:
every segment's start is at most its end, adjacent segments do not
overlap (reversed order), and the most recent end is at most the current
packet end. -/
theorem agg_step_inv (h : FilmGrainHeader) (acc : List GrainTableSegment)
    (s e : Nat) (hse : s ≤ e)
    (hstart : ∀ seg ∈ acc, seg.start_time ≤ seg.end_time)
    (hchain : List.Chain' (fun a b => b.end_time ≤ a.start_time) acc)
    (hhead : ∀ seg ∈ acc.head?, seg.end_time ≤ s) :
    (∀ seg ∈ agg_step h acc s e, seg.start_time ≤ seg.end_time) ∧
    List.Chain' (fun a b => b.end_time ≤ a.start_time) (agg_step h acc s e) ∧
    (∀ seg ∈ (agg_step h acc s e).head?, seg.end_time ≤ e) := by
  match acc with
  | [] =>
    cases h with
    | Disable => simp [agg_step]
    | CopyRefFrame => simp [agg_step]
    | UpdateGrain p =>
      refine ⟨?_, ?_, ?_⟩ <;> simp [agg_step]
      exact hse
  | last :: tl =>
    have hlast : last.end_time ≤ s := hhead last (by simp)
    have hlstart : last.start_time ≤ last.end_time := hstart last (by simp)
    have htlstart : ∀ seg ∈ tl, seg.start_time ≤ seg.end_time := by
      intro seg hseg
      exact hstart seg (by simp [hseg])
    have htlchain : List.Chain' (fun a b => b.end_time ≤ a.start_time) tl :=
      hchain.tail
    have hlink : ∀ seg ∈ tl.head?, seg.end_time ≤ last.start_time := by
      intro seg hseg
      exact List.chain'_cons'.mp hchain |>.1 seg hseg
    by_cases hpg : last.end_time = s
    · cases h with
      | Disable =>
        simp only [agg_step, if_pos hpg]
        exact ⟨hstart, hchain, fun seg hseg => by
          simp at hseg
          subst hseg
          omega⟩
      | CopyRefFrame =>
        simp only [agg_step, if_pos hpg]
        refine ⟨?_, ?_, ?_⟩
        · intro seg hseg
          simp at hseg
          rcases hseg with hseg | hseg
          · subst hseg
            simp
            omega
          · exact htlstart seg hseg
        · apply List.chain'_cons'.mpr
          exact ⟨fun seg hseg => hlink seg hseg, htlchain⟩
        · intro seg hseg
          simp at hseg
          subst hseg
          simp
      | UpdateGrain p =>
        simp only [agg_step, if_pos hpg]
        by_cases heq : p.grain_eq last.grain_params
        · simp only [if_pos heq]
          refine ⟨?_, ?_, ?_⟩
          · intro seg hseg
            simp at hseg
            rcases hseg with hseg | hseg
            · subst hseg
              simp
              omega
            · exact htlstart seg hseg
          · apply List.chain'_cons'.mpr
            exact ⟨fun seg hseg => hlink seg hseg, htlchain⟩
          · intro seg hseg
            simp at hseg
            subst hseg
            simp
        · simp only [if_neg heq]
          refine ⟨?_, ?_, ?_⟩
          · intro seg hseg
            simp at hseg
            rcases hseg with hseg | hseg | hseg
            · subst hseg
              exact hse
            · subst hseg
              exact hlstart
            · exact htlstart seg hseg
          · apply List.chain'_cons'.mpr
            refine ⟨fun seg hseg => ?_, hchain⟩
            simp at hseg
            subst hseg
            dsimp only
            omega
          · intro seg hseg
            simp at hseg
            subst hseg
            simp
    · simp only [agg_step, if_neg hpg]
      cases h with
      | Disable =>
        exact ⟨hstart, hchain, fun seg hseg => by
          simp at hseg
          subst hseg
          omega⟩
      | CopyRefFrame =>
        exact ⟨hstart, hchain, fun seg hseg => by
          simp at hseg
          subst hseg
          omega⟩
      | UpdateGrain p =>
        refine ⟨?_, ?_, ?_⟩
        · intro seg hseg
          simp at hseg
          rcases hseg with hseg | hseg | hseg
          · subst hseg
            exact hse
          · subst hseg
            exact hlstart
          · exact htlstart seg hseg
        · apply List.chain'_cons'.mpr
          refine ⟨fun seg hseg => ?_, hchain⟩
          simp at hseg
          subst hseg
          dsimp only
          omega
        · intro seg hseg
          simp at hseg
          subst hseg
          simp

/-- The packet end is monotone in the accumulator numerator. -/
theorem packet_end_mono {x y : Nat} (fr_num : Nat) (hxy : x ≤ y) :
    packet_end x fr_num ≤ packet_end y fr_num := by
  unfold packet_end
  apply Nat.mul_le_mul_right
  apply Nat.div_le_div_right
  omega

/-- The aggregator fold preserves the invariants of `agg_step_inv`. -/
theorem agg_go_inv (fr_num fr_den : Nat) :
    ∀ (hs : List FilmGrainHeader) (acc : List GrainTableSegment) (s f : Nat),
    s ≤ packet_end f fr_num →
    (∀ seg ∈ acc, seg.start_time ≤ seg.end_time) →
    List.Chain' (fun a b => b.end_time ≤ a.start_time) acc →
    (∀ seg ∈ acc.head?, seg.end_time ≤ s) →
    (∀ seg ∈ agg_go fr_num fr_den hs acc s f, seg.start_time ≤ seg.end_time) ∧
    List.Chain' (fun a b => b.end_time ≤ a.start_time)
      (agg_go fr_num fr_den hs acc s f) := by
  intro hs
  induction hs with
  | nil =>
    intro acc s f _ hstart hchain _
    exact ⟨hstart, hchain⟩
  | cons h rest ih =>
    intro acc s f hse hstart hchain hhead
    rw [agg_go]
    obtain ⟨hstart', hchain', hhead'⟩ :=
      agg_step_inv h acc s (packet_end f fr_num) hse hstart hchain hhead
    exact ih _ _ _ (packet_end_mono fr_num (by omega)) hstart' hchain' hhead'

/-! ### Claim C6 -/

/-- C6 (amended): for every ordered sequence of per-frame grain headers
and every positive frame rate, the aggregated segments satisfy
start_i ≤ end_i for every segment and end_i ≤ start_{i+1} for adjacent
segments (non-overlapping and sorted); strictness start_i < end_i can
fail (see the counterexample). -/
theorem c6_timeline_segments_sorted (headers : List FilmGrainHeader)
    (fr_num fr_den : Nat) (_hfr : 0 < fr_num) :
    (∀ seg ∈ aggregate_grain_headers headers fr_num fr_den,
      seg.start_time ≤ seg.end_time) ∧
    List.Chain' (fun a b => a.end_time ≤ b.start_time)
      (aggregate_grain_headers headers fr_num fr_den) := by
  have h := agg_go_inv fr_num fr_den headers [] 0 fr_den (by omega)
    (by simp) (by simp) (by simp)
  unfold aggregate_grain_headers
  constructor
  · intro seg hseg
    exact h.1 seg (List.mem_reverse.mp hseg)
  · rw [List.chain'_reverse]
    exact h.2

/-- C6 witness: the sortedness conclusion at a concrete input. -/
theorem c6_timeline_segments_sorted_witness :
    (0 < 2 ∧
      (∀ seg ∈ aggregate_grain_headers [.UpdateGrain zero_params] 2 1,
        seg.start_time ≤ seg.end_time)) ∧
    List.Chain' (fun a b => a.end_time ≤ b.start_time)
      (aggregate_grain_headers [.UpdateGrain zero_params] 2 1) :=
  ⟨⟨by norm_num,
    (c6_timeline_segments_sorted [.UpdateGrain zero_params] 2 1 (by norm_num)).1⟩,
   (c6_timeline_segments_sorted [.UpdateGrain zero_params] 2 1 (by norm_num)).2⟩

/-- C6 counterexample: at 2 fps with headers [Disable, UpdateGrain], the
second packet spans no new whole second, so the single produced segment
has start_time = end_time = 10000000, refuting the claimed strict
inequality start_i < end_i. -/
theorem c6_degenerate_segment :
    aggregate_grain_headers [.Disable, .UpdateGrain zero_params] 2 1
      = [⟨10000000, 10000000, zero_params⟩] ∧
    ¬ (10000000 < 10000000) :=
  ⟨by decide, by omega⟩

/-! ### Claim C7 -/

/-- C7 counterexample: 30 frames at 24000/1001 fps, every frame an
UpdateGrain with identical parameters.  The cumulative time is
30·1001/24000 = 1.25125 seconds; the code takes the WHOLE-SECOND ceiling,
so the single segment ends at 2·10^7 = 20000000, not 12513000 as claimed. -/
theorem c7_constant_grain_segment_end :
    aggregate_grain_headers
        (List.replicate 30 (.UpdateGrain zero_params)) 24000 1001
      = [⟨0, 20000000, zero_params⟩] ∧
    (20000000 : Nat) ≠ 12513000 :=
  ⟨by decide, by omega⟩

/-- C7 (amended): for 30 identical-parameter UpdateGrain frames at
24000/1001 fps the aggregator produces exactly one segment, from 0 to
ceil(30·1001/24000) · 10,000,000 = 20000000 (the interval end is the
whole-second ceiling of the cumulative time, scaled to ticks). -/
theorem c7_constant_grain_one_segment :
    aggregate_grain_headers
        (List.replicate 30 (.UpdateGrain zero_params)) 24000 1001
      = [⟨0, ((30 * 1001 + 24000 - 1) / 24000) * TIMESTAMP_BASE_UNIT,
          zero_params⟩] := by
  decide

/-! ### Claim C10 -/

/-- Post-condition reasoning for a monadic bind: to show P of the bound
parser's outcome it suffices to show P on err, on crash, and on every
continuation outcome. -/
theorem PM.bind_post {α β : Type} (P : POut β → Prop) (m : PM α)
    (f : α → PM β) (he : P .err) (hc : P .crash)
    (hf : ∀ a rest, P (f a rest)) :
    ∀ input, P ((m >>= f) input) := by
  intro input
  rw [PM.bind_def]
  cases m input with
  | ok a rest => exact hf a rest
  | err => exact he
  | crash => exact hc

/-- Every outcome of the grain body is err, crash, a non-UpdateGrain
header, or an UpdateGrain whose scaling_shift is literally 8. -/
theorem film_grain_body_shift (ft : FrameType) (mono : Bool)
    (ss : Nat × Nat) (input : List Bool) :
    shift8_post (film_grain_body ft mono ss input) := by
  have herr : shift8_post (POut.err : POut FilmGrainHeader) := by
    intro p rest hpr
    exact absurd hpr (by simp)
  have hcrash : shift8_post (POut.crash : POut FilmGrainHeader) := by
    intro p rest hpr
    exact absurd hpr (by simp)
  unfold film_grain_body
  refine PM.bind_post shift8_post _ _ herr hcrash (fun apply_grain r1 => ?_) input
  by_cases h1 : ¬apply_grain
  · rw [if_pos h1]
    intro p rest hp
    rw [PM.pure_def] at hp
    simp at hp
  · rw [if_neg h1]
    refine PM.bind_post shift8_post _ _ herr hcrash (fun seed r2 => ?_) r1
    refine PM.bind_post shift8_post _ _ herr hcrash (fun update r3 => ?_) r2
    by_cases h2 : ¬update
    · rw [if_pos h2]
      refine PM.bind_post shift8_post _ _ herr hcrash (fun rid r4 => ?_) r3
      intro p rest hp
      rw [PM.pure_def] at hp
      simp at hp
    · rw [if_neg h2]
      refine PM.bind_post shift8_post _ _ herr hcrash (fun nyp r4 => ?_) r3
      refine PM.bind_post shift8_post _ _ herr hcrash (fun spy r5 => ?_) r4
      refine PM.bind_post shift8_post _ _ herr hcrash (fun cfl r6 => ?_) r5
      refine PM.bind_post shift8_post _ _ herr hcrash (fun cbcr r7 => ?_) r6
      refine PM.bind_post shift8_post _ _ herr hcrash (fun gsm8 r8 => ?_) r7
      refine PM.bind_post shift8_post _ _ herr hcrash (fun lag r9 => ?_) r8
      refine PM.bind_post shift8_post _ _ herr hcrash (fun yc r10 => ?_) r9
      refine PM.bind_post shift8_post _ _ herr hcrash (fun cb r11 => ?_) r10
      refine PM.bind_post shift8_post _ _ herr hcrash (fun cr r12 => ?_) r11
      refine PM.bind_post shift8_post _ _ herr hcrash (fun shm6 r13 => ?_) r12
      refine PM.bind_post shift8_post _ _ herr hcrash (fun gss r14 => ?_) r13
      refine PM.bind_post shift8_post _ _ herr hcrash (fun cbm r15 => ?_) r14
      refine PM.bind_post shift8_post _ _ herr hcrash (fun crm r16 => ?_) r15
      refine PM.bind_post shift8_post _ _ herr hcrash (fun ov r17 => ?_) r16
      refine PM.bind_post shift8_post _ _ herr hcrash (fun clip r18 => ?_) r17
      intro p rest hp
      rw [PM.pure_def] at hp
      simp only [POut.ok.injEq, FilmGrainHeader.UpdateGrain.injEq] at hp
      rw [← hp.1]

/-- C10: every successfully parsed UpdateGrain film-grain header has
scaling_shift = 8: the coded 2-bit grain_scaling_minus_8 is consumed but
discarded, so values 9, 10, 11 are never observable. -/
theorem c10_scaling_shift_constant (film_grain_allowed : Bool)
    (frame_type : FrameType) (monochrome : Bool) (subsampling : Nat × Nat)
    (input rest : List Bool) (p : FilmGrainParams)
    (h : film_grain_params film_grain_allowed frame_type monochrome subsampling
          input = .ok (.UpdateGrain p) rest) :
    p.scaling_shift = 8 := by
  unfold film_grain_params at h
  split at h
  · rw [PM.pure_def] at h
    simp at h
  · exact film_grain_body_shift frame_type monochrome subsampling input p rest h

/-- C10 witness: the constant-8 conclusion at a concrete 31-bit input
whose coded grain_scaling_minus_8 bits are 01 (value 1). -/
theorem c10_scaling_shift_constant_witness :
    (film_grain_params true .Key true (1, 1) grain_input_scaling1
        = .ok (.UpdateGrain zero_params) []) ∧
    zero_params.scaling_shift = 8 :=
  ⟨by decide,
   c10_scaling_shift_constant true .Key true (1, 1) grain_input_scaling1 []
     zero_params (by decide)⟩

/-! ### Bit encode/decode round trip -/

theorem natToBits_length (n v : Nat) : (natToBits n v).length = n := by
  induction n generalizing v with
  | zero => rfl
  | succ n ih => simp [natToBits, ih]

theorem bitsToNat_natToBits_go (v : Nat) : ∀ n acc,
    (natToBits n v).foldl (fun a b => 2 * a + (if b then 1 else 0)) acc
      = acc * 2 ^ n + v % 2 ^ n := by
  intro n
  induction n generalizing v with
  | zero =>
    intro acc
    simp [natToBits, Nat.mod_one]
  | succ n ih =>
    intro acc
    rw [natToBits, List.foldl_cons, ih]
    have hsplit : v % 2 ^ (n + 1) = v % 2 ^ n + 2 ^ n * (v / 2 ^ n % 2) := by
      have h2 : (2 : Nat) ^ (n + 1) = 2 ^ n * 2 := by ring
      rw [h2, Nat.mod_mul]
    have htb : (if v.testBit n then 1 else 0) = v / 2 ^ n % 2 := by
      rw [Nat.testBit_to_div_mod]
      rcases Nat.mod_two_eq_zero_or_one (v / 2 ^ n) with h | h <;> simp [h]
    rw [htb, hsplit]
    ring

theorem bitsToNat_natToBits {n v : Nat} (hv : v < 2 ^ n) :
    bitsToNat (natToBits n v) = v := by
  rw [bitsToNat, bitsToNat_natToBits_go]
  simp [Nat.mod_eq_of_lt hv]

/-- Reading `n` bits from the canonical `n`-bit encoding of `v` followed
by anything returns `v` and the remainder. -/
theorem takeB_append {n v : Nat} (hv : v < 2 ^ n) (rest : List Bool) :
    takeB n (natToBits n v ++ rest) = .ok v rest := by
  unfold takeB
  rw [if_pos (by simp [natToBits_length])]
  rw [List.take_left' (natToBits_length n v), List.drop_left' (natToBits_length n v),
    bitsToNat_natToBits hv]

/-- Reading one boolean bit from a cons cell. -/
theorem take_bool_cons (b : Bool) (rest : List Bool) :
    take_bool_bit (b :: rest) = .ok b rest := by
  cases b <;>
    simp [take_bool_bit, PM.bind_def, takeB, bitsToNat, PM.pure_def,
      List.take_succ_cons, List.drop_succ_cons]

/-- The scaling-point reading loop inverts the writer. -/
theorem read_points_rt (pts : List (Nat × Nat)) : ∀ (cap : Nat)
    (acc : List (Nat × Nat)) (rest : List Bool),
    acc.length + pts.length ≤ cap →
    (∀ q ∈ pts, q.1 < 256 ∧ q.2 < 256) →
    read_points cap pts.length acc (write_points pts ++ rest)
      = .ok (acc ++ pts) rest := by
  induction pts with
  | nil =>
    intro cap acc rest _ _
    simp [read_points, write_points, PM.pure_def]
  | cons q tl ih =>
    intro cap acc rest hlen hq
    obtain ⟨hq1, hq2⟩ := hq q (by simp)
    rw [write_points, List.flatMap_cons]
    simp only [List.length_cons, read_points]
    rw [List.append_assoc, List.append_assoc, PM.bind_def,
      takeB_append (by omega : q.1 < 2 ^ 8)]
    dsimp only
    rw [PM.bind_def, takeB_append (by omega : q.2 < 2 ^ 8)]
    dsimp only
    have hcap : ¬ acc.length ≥ cap := by
      simp at hlen
      omega
    rw [if_neg hcap]
    have hih := ih cap (acc ++ [(q.1, q.2)]) rest
      (by simp at hlen ⊢; omega) (fun x hx => hq x (by simp [hx]))
    rw [write_points] at hih
    rw [hih]
    simp

/-- The AR-coefficient reading loop inverts the writer. -/
theorem read_coeffs_rt (cs : List Int) : ∀ (cap : Nat) (acc : List Int)
    (rest : List Bool),
    acc.length + cs.length ≤ cap →
    (∀ c ∈ cs, -128 ≤ c ∧ c < 128) →
    read_coeffs cap cs.length acc (write_coeffs cs ++ rest)
      = .ok (acc ++ cs) rest := by
  induction cs with
  | nil =>
    intro cap acc rest _ _
    simp [read_coeffs, write_coeffs, PM.pure_def]
  | cons c tl ih =>
    intro cap acc rest hlen hc
    obtain ⟨hc1, hc2⟩ := hc c (by simp)
    rw [write_coeffs, List.flatMap_cons]
    simp only [List.length_cons, read_coeffs]
    rw [List.append_assoc, PM.bind_def,
      takeB_append (by omega : (c + 128).toNat < 2 ^ 8)]
    dsimp only
    have hcap : ¬ acc.length ≥ cap := by
      simp at hlen
      omega
    rw [if_neg hcap]
    have hval : ((c + 128).toNat : Int) - 128 = c := by omega
    rw [hval]
    have hih := ih cap (acc ++ [c]) rest
      (by simp at hlen ⊢; omega) (fun x hx => hc x (by simp [hx]))
    rw [write_coeffs] at hih
    rw [hih]
    simp

/-! ### Component round trips for the grain writer -/

theorem read_update_grain_rt (ft : FrameType) (u : Bool) (rest : List Bool)
    (hcond : ft = FrameType.Inter ∨ u = true) :
    read_update_grain ft ((if ft = FrameType.Inter then [u] else []) ++ rest)
      = .ok u rest := by
  unfold read_update_grain
  by_cases hft : ft = FrameType.Inter
  · rw [if_pos hft, if_pos hft, List.cons_append, List.nil_append, take_bool_cons]
  · rw [if_neg hft, if_neg hft, List.nil_append, PM.pure_def]
    rcases hcond with h | h
    · exact absurd h hft
    · rw [h]

theorem read_cfl_rt (mono : Bool) (b : Bool) (rest : List Bool)
    (hmono : mono = true → b = false) :
    read_cfl mono ((if mono then [] else [b]) ++ rest) = .ok b rest := by
  unfold read_cfl
  by_cases hm : mono = true
  · subst hm
    rw [hmono rfl]
    simp [PM.pure_def]
  · simp only [Bool.not_eq_true] at hm
    subst hm
    simp [take_bool_cons]

theorem read_chroma_points_rt (mono cfl : Bool) (ss : Nat × Nat) (nyp : Nat)
    (cb cr : List (Nat × Nat)) (rest : List Bool)
    (hskip : (mono = true ∨ cfl = true ∨ (ss.1 = 1 ∧ ss.2 = 1 ∧ nyp = 0)) →
      cb = [] ∧ cr = [])
    (hcb : cb.length ≤ 10) (hcbq : ∀ q ∈ cb, q.1 < 256 ∧ q.2 < 256)
    (hcr : cr.length ≤ 10) (hcrq : ∀ q ∈ cr, q.1 < 256 ∧ q.2 < 256) :
    read_chroma_points mono cfl ss nyp
      ((if mono ∨ cfl ∨ (ss.1 = 1 ∧ ss.2 = 1 ∧ nyp = 0) then []
        else natToBits 4 cb.length ++ (write_points cb ++
          (natToBits 4 cr.length ++ write_points cr))) ++ rest)
      = .ok (cb, cr, cb.length, cr.length) rest := by
  unfold read_chroma_points
  by_cases hc : mono = true ∨ cfl = true ∨ (ss.1 = 1 ∧ ss.2 = 1 ∧ nyp = 0)
  · obtain ⟨hcb0, hcr0⟩ := hskip hc
    subst hcb0
    subst hcr0
    rw [if_pos (by tauto), if_pos (by tauto), List.nil_append, PM.pure_def]
    simp
  · rw [if_neg (by tauto), if_neg (by tauto)]
    simp only [List.append_assoc, List.nil_append]
    rw [PM.bind_def, takeB_append (by omega : cb.length < 2 ^ 4)]
    dsimp only
    rw [PM.bind_def, read_points_rt cb 10 [] _ (by simpa using hcb) hcbq]
    dsimp only
    rw [PM.bind_def, takeB_append (by omega : cr.length < 2 ^ 4)]
    dsimp only
    rw [PM.bind_def, read_points_rt cr 10 [] _ (by simpa using hcr) hcrq]
    dsimp only
    rw [PM.pure_def]
    simp

theorem read_y_coeffs_rt (nyp npl : Nat) (ys : List Int) (rest : List Bool)
    (hnpl : npl ≤ 24)
    (hys : if nyp > 0 then
        ys.length = npl ∧ ∀ c ∈ ys, -128 ≤ c ∧ c < 128
      else ys = []) :
    read_y_coeffs nyp npl (write_coeffs ys ++ rest)
      = .ok (ys, npl + (if nyp > 0 then 1 else 0)) rest := by
  unfold read_y_coeffs
  by_cases hn : nyp > 0
  · rw [if_pos hn] at hys ⊢
    obtain ⟨hlen, hrange⟩ := hys
    rw [if_pos hn]
    rw [PM.bind_def, ← hlen, read_coeffs_rt ys 24 [] rest (by simp; omega) hrange]
    dsimp only
    rw [PM.pure_def]
    simp [hlen]
  · rw [if_neg hn] at hys ⊢
    rw [if_neg hn]
    subst hys
    rw [write_coeffs, List.flatMap_nil, List.nil_append, PM.pure_def]
    simp

theorem read_chroma_coeffs_rt (cfl : Bool) (np npc : Nat) (cs : List Int)
    (rest : List Bool) (hnpc : npc ≤ 25)
    (hcs : if cfl = true ∨ np > 0 then
        cs.length = npc ∧ ∀ c ∈ cs, -128 ≤ c ∧ c < 128
      else cs = [0]) :
    read_chroma_coeffs cfl np npc
      ((if cfl = true ∨ np > 0 then write_coeffs cs else []) ++ rest)
      = .ok cs rest := by
  unfold read_chroma_coeffs
  by_cases hc : cfl = true ∨ np > 0
  · rw [if_pos hc] at hcs ⊢
    obtain ⟨hlen, hrange⟩ := hcs
    rw [if_pos (by tauto)]
    rw [← hlen, read_coeffs_rt cs 25 [] rest (by simp; omega) hrange]
    simp
  · rw [if_neg hc] at hcs ⊢
    rw [if_neg (by tauto), List.nil_append, PM.pure_def]
    rw [hcs]

theorem read_mults_rt (np m lm off : Nat) (rest : List Bool)
    (hm : if np > 0 then m < 256 ∧ lm < 256 ∧ off < 512
      else m = 0 ∧ lm = 0 ∧ off = 0) :
    read_mults np
      ((if np > 0 then natToBits 8 m ++ (natToBits 8 lm ++ natToBits 9 off)
        else []) ++ rest)
      = .ok (m, lm, off) rest := by
  unfold read_mults
  by_cases hn : np > 0
  · rw [if_pos hn] at hm ⊢
    obtain ⟨h1, h2, h3⟩ := hm
    rw [if_pos hn]
    simp only [List.append_assoc]
    rw [PM.bind_def, takeB_append (by omega : m < 2 ^ 8)]
    dsimp only
    rw [PM.bind_def, takeB_append (by omega : lm < 2 ^ 8)]
    dsimp only
    rw [PM.bind_def, takeB_append (by omega : off < 2 ^ 9)]
    dsimp only
    rw [PM.pure_def]
  · rw [if_neg hn] at hm ⊢
    obtain ⟨h1, h2, h3⟩ := hm
    rw [if_neg hn, List.nil_append, PM.pure_def, h1, h2, h3]

/-- The grain writer inverts the grain reader: parsing the canonical
encoding of any well-formed header (followed by anything) returns exactly
that header and the remainder. -/
theorem grain_body_roundtrip (ft : FrameType) (mono : Bool) (ss : Nat × Nat)
    (hdr : FilmGrainHeader) (rest : List Bool)
    (hwf : wf_header ft mono ss hdr) :
    film_grain_body ft mono ss (write_film_grain_body ft mono ss hdr ++ rest)
      = .ok hdr rest := by
  match hdr with
  | .Disable =>
    rw [write_film_grain_body, film_grain_body]
    simp only [List.cons_append, List.nil_append]
    rw [PM.bind_def, take_bool_cons]
    dsimp only
    rw [if_pos (by simp), PM.pure_def]
  | .CopyRefFrame =>
    have hft : ft = FrameType.Inter := hwf
    subst hft
    rw [write_film_grain_body, film_grain_body]
    simp only [List.append_assoc, List.cons_append, List.nil_append]
    rw [PM.bind_def, take_bool_cons]
    dsimp only
    rw [if_neg (by simp)]
    rw [PM.bind_def, takeB_append (by norm_num : (0 : Nat) < 2 ^ 16)]
    dsimp only
    simp only [if_true, List.cons_append, List.nil_append]
    rw [read_update_grain, if_pos rfl, PM.bind_def, take_bool_cons]
    dsimp only
    rw [if_pos (by simp)]
    rw [PM.bind_def, takeB_append (by norm_num : (0 : Nat) < 2 ^ 3)]
    dsimp only
    rw [PM.pure_def]
  | .UpdateGrain p =>
    rcases p with ⟨seed, spy, spcb, spcr, sshift, lag, ay, acb, acr, ashift,
      cbm, cblm, cbo, crm, crlm, cro, cfl, gss, ov, clip⟩
    simp only [wf_header] at hwf
    obtain ⟨hseed, hylen, hyq, hshift, hmcfl, hchroma, hlag, hay, hacb, hacr,
      hsh1, hsh2, hgssb, hcbmults, hcrmults⟩ := hwf
    subst hshift
    have hskip : (mono = true ∨ cfl = true ∨
        (ss.1 = 1 ∧ ss.2 = 1 ∧ spy.length = 0)) → spcb = [] ∧ spcr = [] := by
      intro hC
      rw [if_pos (by tauto)] at hchroma
      exact hchroma
    have hcbbounds : spcb.length ≤ 10 ∧ (∀ q ∈ spcb, q.1 < 256 ∧ q.2 < 256) ∧
        spcr.length ≤ 10 ∧ (∀ q ∈ spcr, q.1 < 256 ∧ q.2 < 256) := by
      by_cases hC : mono = true ∨ cfl = true ∨
          (ss.1 = 1 ∧ ss.2 = 1 ∧ spy.length = 0)
      · obtain ⟨h1, h2⟩ := hskip hC
        subst h1
        subst h2
        simp
      · rw [if_neg (by tauto)] at hchroma
        exact hchroma
    obtain ⟨hcb1, hcb2, hcr1, hcr2⟩ := hcbbounds
    have hnpl24 : 2 * lag * (lag + 1) ≤ 24 := by
      interval_cases lag <;> norm_num
    have hnpc25 : 2 * lag * (lag + 1) + (if spy.length > 0 then 1 else 0)
        ≤ 25 := by
      split <;> omega
    rw [write_film_grain_body, film_grain_body]
    simp only [List.append_assoc, List.cons_append, List.nil_append]
    rw [PM.bind_def, take_bool_cons]
    dsimp only
    rw [if_neg (by simp)]
    rw [PM.bind_def, takeB_append hseed]
    dsimp only
    rw [PM.bind_def, read_update_grain_rt ft true _ (Or.inr rfl)]
    dsimp only
    rw [if_neg (by simp)]
    rw [PM.bind_def, takeB_append (show spy.length < 2 ^ 4 by omega)]
    dsimp only
    rw [PM.bind_def, read_points_rt spy 14 [] _ (by simp; omega) hyq]
    dsimp only
    rw [PM.bind_def, read_cfl_rt mono cfl _ hmcfl]
    dsimp only
    rw [PM.bind_def, read_chroma_points_rt mono cfl ss spy.length spcb spcr _
      hskip hcb1 hcb2 hcr1 hcr2]
    dsimp only
    rw [PM.bind_def, takeB_append (show 8 - 8 < 2 ^ 2 by norm_num)]
    dsimp only
    rw [PM.bind_def, takeB_append (show lag < 2 ^ 2 by omega)]
    dsimp only
    rw [PM.bind_def, read_y_coeffs_rt spy.length (2 * lag * (lag + 1)) ay _
      hnpl24 hay]
    dsimp only
    rw [PM.bind_def, read_chroma_coeffs_rt cfl spcb.length _ acb _ hnpc25 hacb]
    dsimp only
    rw [PM.bind_def, read_chroma_coeffs_rt cfl spcr.length _ acr _ hnpc25 hacr]
    dsimp only
    rw [PM.bind_def, takeB_append (show ashift - 6 < 2 ^ 2 by omega)]
    dsimp only
    rw [PM.bind_def, takeB_append (show gss < 2 ^ 2 by omega)]
    dsimp only
    rw [PM.bind_def, read_mults_rt spcb.length cbm cblm cbo _ hcbmults]
    dsimp only
    rw [PM.bind_def, read_mults_rt spcr.length crm crlm cro _ hcrmults]
    dsimp only
    rw [PM.bind_def, take_bool_cons]
    dsimp only
    rw [PM.bind_def, take_bool_cons]
    dsimp only
    rw [PM.pure_def]
    have hsh : ashift - 6 + 6 = ashift := by omega
    rw [hsh]
    simp

/-! ### Claim C1 -/

/-- Rewriting a canonical item under the identity policy reproduces its
bits exactly. -/
theorem rewrite_item_canonical (it : PacketItem) (h : canonical_item it) :
    rewrite_item it = some (item_bits it) := by
  match it with
  | .raw bits => rfl
  | .frame present show_f showable ft mono ss pre grain post =>
    obtain ⟨hdr, hwf, hgr⟩ := h
    subst hgr
    simp only [rewrite_item, item_bits, film_grain_params_frame,
      write_film_grain_frame]
    by_cases hallow : ¬present = true ∨ ¬(show_f = true ∨ showable = true)
    · simp only [if_pos hallow, PM.pure_def]
      simp
    · simp only [if_neg hallow]
      have hrt := grain_body_roundtrip ft mono ss hdr [] hwf
      rw [List.append_nil] at hrt
      rw [hrt]
      simp

/-- Rewriting every item of a packet of canonical items succeeds and
reproduces each item's bits. -/
theorem mapM_rewrite_canonical : ∀ (packet : List PacketItem),
    (∀ it ∈ packet, canonical_item it) →
    packet.mapM rewrite_item = some (packet.map item_bits) := by
  intro packet
  induction packet with
  | nil => intro _; rfl
  | cons it tl ih =>
    intro h
    rw [List.mapM_cons, rewrite_item_canonical it (h it (by simp)),
      ih (fun x hx => h x (by simp [hx]))]
    rfl

/-- C1 (amended): the identity rewrite is byte-identical for every packet
whose frame grain blocks are canonical encodings of well-formed headers
(in particular, every UpdateGrain frame codes grain_scaling_minus_8 as 0
and CopyRefFrame/Disable frames use the zero short form); it is NOT
byte-identical in general because the reader discards the coded
grain_scaling_minus_8 bits (see the counterexample). -/
theorem c1_identity_rewrite_canonical (packet : List PacketItem)
    (h : ∀ it ∈ packet, canonical_item it) :
    rewrite_packet packet = some ((packet.map item_bits).flatten) := by
  unfold rewrite_packet
  rw [mapM_rewrite_canonical packet h]
  rfl

/-- C1 witness: the identity rewrite at a concrete two-item packet (one
raw OBU plus one frame whose grain block is the canonical encoding of a
concrete UpdateGrain header). -/
theorem c1_identity_rewrite_canonical_witness :
    rewrite_packet
        [.raw [true, false],
         .frame true true true .Key true (1, 1) [false]
           (write_film_grain_frame true true true .Key true (1, 1)
             (.UpdateGrain zero_params)) [true]]
      = some
        (([.raw [true, false],
           .frame true true true .Key true (1, 1) [false]
             (write_film_grain_frame true true true .Key true (1, 1)
               (.UpdateGrain zero_params)) [true]].map item_bits).flatten) := by
  apply c1_identity_rewrite_canonical
  intro it hit
  simp only [List.mem_cons, List.not_mem_nil, or_false] at hit
  rcases hit with h | h
  · subst h
    trivial
  · subst h
    exact ⟨.UpdateGrain zero_params, by unfold wf_header; decide, rfl⟩

/-- C1 counterexample: a frame whose UpdateGrain grain block codes
grain_scaling_minus_8 = 1 parses successfully, but replacing the header
with its own identical parameters re-encodes those discarded bits as 0,
so the output packet differs from the input: the identity-policy rewrite
is not byte-identical for every input stream. -/
theorem c1_identity_rewrite_not_bytewise :
    rewrite_packet
        [.frame true true true .Key true (1, 1) [] grain_input_scaling1 []]
      ≠ some
        (([(.frame true true true .Key true (1, 1) [] grain_input_scaling1 []
            : PacketItem)].map item_bits).flatten) := by
  decide

theorem preservesC2_refl (st : RefState) : preservesC2 st st :=
  ⟨rfl, rfl, fun _ h => h⟩

theorem preservesC2_trans {s1 s2 s3 : RefState} (h1 : preservesC2 s1 s2)
    (h2 : preservesC2 s2 s3) : preservesC2 s1 s3 :=
  ⟨h2.1.trans h1.1, h2.2.1.trans h1.2.1, fun i h => h1.2.2 i (h2.2.2 i h)⟩

theorem preservesC2_key_show_reset (st : RefState) :
    preservesC2 st (key_show_reset st) := by
  refine ⟨rfl, rfl, fun i h => ?_⟩
  simp [key_show_reset] at h

theorem preservesC2_uh_key_reset (a : StageA) (st : RefState) :
    preservesC2 st (uh_key_reset a st) := by
  unfold uh_key_reset
  split
  · exact preservesC2_key_show_reset st
  · exact preservesC2_refl st

theorem preservesC2_hints (bits : Nat) :
    ∀ (idxs : List (Fin 8)) (st : RefState) (input : List Bool),
      preservesC2 st (hints_loop bits idxs st input).2 := by
  intro idxs
  induction idxs with
  | nil => intro st input; exact preservesC2_refl st
  | cons i rest ih =>
    intro st input
    unfold hints_loop
    rcases takeB bits input with ⟨cur, inp2⟩ | _ | _
    · dsimp only
      refine preservesC2_trans ?_ (ih _ _)
      split
      · refine ⟨rfl, rfl, fun j h => ?_⟩
        by_cases hji : j = i
        · subst hji; simp [Function.update] at h
        · simpa [Function.update, hji] using h
      · exact preservesC2_refl _
    · exact preservesC2_refl st
    · exact preservesC2_refl st

theorem preservesC2_uh_hints (sh : SequenceHeaderL) (a : StageA) (b : StageB)
    (st : RefState) (input : List Bool) :
    preservesC2 st (uh_hints sh a b st input).2 := by
  unfold uh_hints
  split
  · exact preservesC2_hints _ _ _ _
  · exact preservesC2_refl st

theorem preservesC2_ref_idx (sh : SequenceHeaderL) (frss : Bool) :
    ∀ (idxs : List (Fin 7)) (st : RefState) (input : List Bool),
      preservesC2 st (ref_idx_loop sh frss idxs st input).2 := by
  intro idxs
  induction idxs with
  | nil => intro st input; exact preservesC2_refl st
  | cons i rest ih =>
    intro st input
    unfold ref_idx_loop
    split
    · exact preservesC2_trans ⟨rfl, rfl, fun j h => h⟩ (ih _ _)
    · rcases takeB 3 input with ⟨v, inp2⟩ | _ | _
      · dsimp only
        split
        · rcases takeB (sh.delta_frame_id_len_minus_2 + 2) inp2 with
            ⟨w, inp3⟩ | _ | _
          · exact preservesC2_trans ⟨rfl, rfl, fun j h => h⟩ (ih _ _)
          · exact ⟨rfl, rfl, fun j h => h⟩
          · exact ⟨rfl, rfl, fun j h => h⟩
        · exact preservesC2_trans ⟨rfl, rfl, fun j h => h⟩ (ih _ _)
      · exact preservesC2_refl st
      · exact preservesC2_refl st

theorem preservesC2_update_hints (st : RefState) :
    preservesC2 st (update_big_order_hints st) :=
  ⟨rfl, rfl, fun _ h => h⟩

/-- Claim C2 (amended): when `uncompressed_header` fails, the sequence
header and previous frame header are untouched and `big_ref_valid`
entries have only been cleared, never set; the claim's unqualified
"leaves ALL shared state exactly as it was" is refuted by the
counterexample, since the key+show reset and the error-resilient hints
loop mutate reference state before a later failure. -/
theorem c2_fail_preserves_headers_and_validity (st : RefState)
    (input : List Bool) (obu : ObuHeaderL) (st' : RefState)
    (h : uncompressed_header st input obu = .fail st') :
    st'.sequence_header = st.sequence_header ∧
    st'.previous_frame_header = st.previous_frame_header ∧
    ∀ i, st'.big_ref_valid i = true → st.big_ref_valid i = true := by
  show preservesC2 st st'
  unfold uncompressed_header at h
  split at h
  · exact absurd h (by simp)
  · rename_i sh hsh
    split at h
    · injection h with h1
      subst h1
      exact preservesC2_refl st
    · exact absurd h (by simp)
    · split at h
      · exact absurd h (by simp)
      · exact absurd h (by simp)
    · rename_i a input1 heqa
      split at h
      · injection h with h1
        subst h1
        exact preservesC2_uh_key_reset a st
      · exact absurd h (by simp)
      · rename_i b input2 heqb
        split at h
        · rename_i st2 heq
          injection h with h1
          subst h1
          have h2 := congrArg Prod.snd heq
          dsimp at h2
          rw [← h2]
          exact preservesC2_trans (preservesC2_uh_key_reset a st)
            (preservesC2_uh_hints sh a b (uh_key_reset a st) input2)
        · rename_i input3 st2 heq
          have hst2 : preservesC2 st st2 := by
            have h2 := congrArg Prod.snd heq
            dsimp at h2
            rw [← h2]
            exact preservesC2_trans (preservesC2_uh_key_reset a st)
              (preservesC2_uh_hints sh a b (uh_key_reset a st) input2)
          split at h
          · split at h
            · injection h with h1; subst h1; exact hst2
            · exact absurd h (by simp)
            · split at h
              · injection h with h1; subst h1; exact hst2
              · exact absurd h (by simp)
              · exact absurd h (by simp)
          · split at h
            · injection h with h1; subst h1; exact hst2
            · exact absurd h (by simp)
            · rename_i frss input4 heqf
              split at h
              · rename_i st3 heq3
                injection h with h1
                subst h1
                have h3 := congrArg Prod.snd heq3
                dsimp at h3
                rw [← h3]
                exact preservesC2_trans hst2
                  (preservesC2_ref_idx sh frss (List.finRange 7) st2 input4)
              · rename_i input5 st3 heq3
                have hst3 : preservesC2 st st3 := by
                  have h3 := congrArg Prod.snd heq3
                  dsimp at h3
                  rw [← h3]
                  exact preservesC2_trans hst2
                    (preservesC2_ref_idx sh frss (List.finRange 7) st2 input4)
                split at h
                · injection h with h1; subst h1; exact hst3
                · exact absurd h (by simp)
                · split at h
                  · injection h with h1; subst h1; exact hst3
                  · exact absurd h (by simp)
                  · split at h
                    · injection h with h1
                      subst h1
                      exact preservesC2_trans hst3
                        (preservesC2_update_hints st3)
                    · exact absurd h (by simp)
                    · exact absurd h (by simp)

/-- Closed instance of the C2 theorem at the concrete failing input. -/
theorem c2_fail_preserves_headers_and_validity_witness :
    (key_show_reset st_c2).sequence_header = st_c2.sequence_header ∧
    (key_show_reset st_c2).previous_frame_header =
      st_c2.previous_frame_header ∧
    ((key_show_reset st_c2).big_ref_valid 0 = true →
      st_c2.big_ref_valid 0 = true) :=
  have h : uncompressed_header st_c2 c2_input obu0 =
      .fail (key_show_reset st_c2) := by decide
  ⟨(c2_fail_preserves_headers_and_validity st_c2 c2_input obu0 _ h).1,
    (c2_fail_preserves_headers_and_validity st_c2 c2_input obu0 _ h).2.1,
    (c2_fail_preserves_headers_and_validity st_c2 c2_input obu0 _ h).2.2 0⟩

/-- Counterexample to C2 as stated: a 4-bit key+show prefix that fails
at `disable_cdf_update` leaves `big_ref_valid` all false although every
entry was true before the OBU parse began — shared reference state IS
partially updated on failure. -/
theorem c2_counterexample_state_mutated_on_failure :
    FHOutcome.failValids (uncompressed_header st_c2 c2_input obu0) =
      some (List.replicate 8 false) ∧
    st_c2.big_ref_valid 0 = true := by decide

/-- Claim C3 (amended): every successful `uncompressed_header` outcome
that reaches end-of-header (refresh ghost data present) has
`big_ref_valid[i] = true` and `big_ref_order_hint[i] = order_hint` for
every bit `i` set in `refresh_frame_flags`; the claim's companion
assertion that a key+show frame leaves all `big_ref_valid[i] = false`
after the parse is refuted, because a key+show frame forces
`refresh_frame_flags = 0xff`, which sets them all back to true at
end-of-header. -/
theorem c3_refresh_sets_valid_and_hint (st : RefState) (input : List Bool)
    (obu : ObuHeaderL) (fh : FrameHeaderL) (r oh : Nat) (rest : List Bool)
    (st' : RefState)
    (h : uncompressed_header st input obu = .ok fh (some (r, oh)) rest st') :
    ∀ i : Fin 8, (r >>> i.val) &&& 1 = 1 →
      st'.big_ref_valid i = true ∧ st'.big_ref_order_hint i = oh := by
  unfold uncompressed_header at h
  split at h
  · exact absurd h (by simp)
  · split at h
    · exact absurd h (by simp)
    · exact absurd h (by simp)
    · split at h
      · exact absurd h (by simp)
      · exact absurd h (by simp)
    · split at h
      · exact absurd h (by simp)
      · exact absurd h (by simp)
      · split at h
        · exact absurd h (by simp)
        · split at h
          · split at h
            · exact absurd h (by simp)
            · exact absurd h (by simp)
            · split at h
              · exact absurd h (by simp)
              · exact absurd h (by simp)
              · rw [FHOutcome.ok.injEq] at h
                obtain ⟨-, hg, -, hst⟩ := h
                rw [Option.some.injEq, Prod.mk.injEq] at hg
                obtain ⟨hr, hoh⟩ := hg
                subst hr
                subst hoh
                subst hst
                intro i hbit
                constructor <;>
                  (unfold apply_refresh; dsimp only; rw [if_pos hbit])
          · split at h
            · exact absurd h (by simp)
            · exact absurd h (by simp)
            · split at h
              · exact absurd h (by simp)
              · split at h
                · exact absurd h (by simp)
                · exact absurd h (by simp)
                · split at h
                  · exact absurd h (by simp)
                  · exact absurd h (by simp)
                  · split at h
                    · exact absurd h (by simp)
                    · exact absurd h (by simp)
                    · rw [FHOutcome.ok.injEq] at h
                      obtain ⟨-, hg, -, hst⟩ := h
                      rw [Option.some.injEq, Prod.mk.injEq] at hg
                      obtain ⟨hr, hoh⟩ := hg
                      subst hr
                      subst hoh
                      subst hst
                      intro i hbit
                      constructor <;>
                        (unfold apply_refresh; dsimp only; rw [if_pos hbit])

/-- Closed instance of the C3 theorem at a concrete 20-bit key+show
frame: bit 0 of `refresh_frame_flags = 0xff` is set, so slot 0 is valid
with order hint 0. -/
theorem c3_refresh_sets_valid_and_hint_witness :
    st_c3_final.big_ref_valid 0 = true ∧
    st_c3_final.big_ref_order_hint 0 = 0 :=
  c3_refresh_sets_valid_and_hint st_c3 c3_input obu0 fh_c3 255 0 []
    st_c3_final (by decide) 0 (by decide)

/-- Counterexample to C3 as stated: after the same successfully parsed
key+show frame, every `big_ref_valid[i]` is TRUE (the forced
`refresh_frame_flags = 0xff` re-validates all slots at end-of-header),
not false as the claim asserts. -/
theorem c3_counterexample_key_show_all_valid :
    uncompressed_header st_c3 c3_input obu0 =
      .ok fh_c3 (some (REFRESH_ALL_FRAMES, 0)) [] st_c3_final ∧
    FHOutcome.okValids (uncompressed_header st_c3 c3_input obu0) =
      some (List.replicate 8 true) := by decide

/-- Claim C8 (amended): when `seen_frame_header` is already set, the
parser returns `Ok(None)` — not the previously parsed frame header —
and mutates no state, consuming no input. -/
theorem c8_seen_header_returns_none (st : RefState) (input : List Bool)
    (obu : ObuHeaderL) (h : st.seen_frame_header = true) :
    parse_frame_header st input obu = .ok none input st := by
  unfold parse_frame_header
  rw [if_pos h]

/-- Closed instance of the C8 theorem. -/
theorem c8_seen_header_returns_none_witness :
    parse_frame_header st_seen [true] obu0 = .ok none [true] st_seen :=
  c8_seen_header_returns_none st_seen [true] obu0 rfl

/-- Counterexample to C8 as stated: with `seen_frame_header` set and a
remembered previous frame header, the parser returns `none`, which is
not that previous header. -/
theorem c8_counterexample_returns_none_not_previous :
    parse_frame_header st_seen [true] obu0 = .ok none [true] st_seen ∧
    st_seen.previous_frame_header = some fh_prev ∧
    (none : Option FrameHeaderL) ≠ some fh_prev := by
  refine ⟨by decide, by decide, by simp⟩

/-- Claim C9 (amended): parsing a frame header with no sequence header
installed PANICS (the `unwrap` on `self.sequence_header` in
frame.rs line 124), modelled as `.crash`; there is no typed
`SequenceHeaderMissing` error value in the code. -/
theorem c9_missing_sequence_header_crashes (st : RefState)
    (input : List Bool) (obu : ObuHeaderL) (h1 : st.sequence_header = none)
    (h2 : st.seen_frame_header = false) :
    parse_frame_header st input obu = .crash := by
  simp [parse_frame_header, uncompressed_header, h1, h2]

/-- Closed instance of the C9 theorem. -/
theorem c9_missing_sequence_header_crashes_witness :
    parse_frame_header st_noseq [] obu0 = .crash :=
  c9_missing_sequence_header_crashes st_noseq [] obu0 rfl rfl

/-- Counterexample to C9 as stated: at a concrete state with no
sequence header, the outcome is the crash (panic), i.e. not any
`.fail`/`.ok` value — no typed error value is returned. -/
theorem c9_counterexample_crash_not_typed_error :
    parse_frame_header st_noseq [true] obu0 = .crash := by decide

end Grav
